import Mathlib

/-!
# The create-container interceptor of the weave proxy

A shallow embedding of `proxy/create_container_interceptor.go`, followed by the
properties of it that the specification states.

Conventions of the embedding.

* A Go `map[string]interface{}` is an association list `Obj`; a key is looked up at its
  first occurrence and written at its first occurrence (or added at the end).
* A Go `interface{}` value is a `JVal`.  Next to the shapes that JSON decoding produces
  (`null`, booleans, numbers, strings, `[]interface{}`, nested maps) there is the Go
  type `[]string`, which the interceptor itself stores in the document.
* A Go `[]string` is a `GoStrs`: `none` is the nil slice, `some l` a non-nil slice with
  elements `l` (so `some []` is the empty, non-nil slice).
* The request document is mutated in place by the Go code.  Every function of the
  embedding that mutates returns the document it leaves behind, also when it fails,
  together with the error (if any) and the calls it made to the outside world.
* Go maps are references.  A nested mapping such as `hostConfig` is the one that the
  document holds (`lookupObject` hands out the stored mapping, and stores the empty one
  it hands out for a missing key: `lookupObjectStore`), so a Go write into it shows in
  the document.  In the embedding mappings are values: after such a write the document
  is given the written mapping under the same key.
* A run-time panic (the nil `Config` of an inspected image) is the outcome
  `Err.nilDereference`; it is handed on like an error, since no caller recovers.
-/

namespace WeaveProxy

/-! ## Data model -/

/-- Go `[]string`: `none` is the nil slice, `some l` a non-nil slice holding `l`. -/
abbrev GoStrs := Option (List String)

/-- The elements of a Go string slice (what `range` visits). -/
def GoStrs.elems : GoStrs → List String
  | none => []
  | some l => l

/-- Go `len(s)` of a string slice. -/
def GoStrs.len (s : GoStrs) : Nat := s.elems.length

/-- Go `append(s, xs...)` on string slices, for at least one appended element. -/
def GoStrs.append (s : GoStrs) (xs : List String) : GoStrs := some (s.elems ++ xs)

/-- A Go `interface{}` value held by the request document. -/
inductive JVal where
  | null
  | bool (b : Bool)
  | num (n : String)
  | str (s : String)
  | strs (l : Option (List String))
  | arr (l : List JVal)
  | obj (m : List (String × JVal))

/-- A Go `map[string]interface{}`. -/
abbrev Obj := List (String × JVal)

/-- Go `v, ok := m[key]`: `none` when the key is not in the map. -/
def Obj.get? : Obj → String → Option JVal
  | [], _ => none
  | (k, v) :: rest, key => if k = key then some v else Obj.get? rest key

/-- Go `m[key] = v`. -/
def Obj.set : Obj → String → JVal → Obj
  | [], key, v => [(key, v)]
  | (k, w) :: rest, key, v => if k = key then (k, v) :: rest else (k, w) :: Obj.set rest key v

/-- Go `UnmarshalWrongTypeError{Field, Expected, Got}`. -/
structure UnmarshalWrongTypeError where
  Field : String
  Expected : String
  Got : JVal

/-- Go `ErrNoSuchImage{Name}` of this package. -/
structure ErrNoSuchImage where
  Name : String

/-- Go `(*ErrNoSuchImage).Error`. -/
def ErrNoSuchImage.Error (err : ErrNoSuchImage) : String :=
  "No such image: " ++ err.Name

/-- Errors that come from outside this package: the docker client's sentinel
`docker.ErrNoSuchImage`, or anything else (body decoding, transport, ...). -/
inductive ClientErr where
  | ErrNoSuchImage
  | other (msg : String)

/-- The ways in which a call ends other than with `nil`. `missingRequiredField` is the
error kind `MissingRequiredField` of the specification (section 7); the code under study
never builds it itself. `nilDereference` is not a returned error but the run-time panic
of Go on a nil pointer: the call does not return and every caller in this file is
unwound, which is rendered by handing it on the way an error is handed on. -/
inductive Err where
  | wrongType (e : UnmarshalWrongTypeError)
  | missingRequiredField (field : String)
  | noSuchImage (e : ErrNoSuchImage)
  | ErrNoCommandSpecified
  | external (e : ClientErr)
  | nilDereference

/-- The fields of `docker.Config` that the interceptor reads. -/
structure ImageConfig where
  Cmd : GoStrs
  Entrypoint : GoStrs

/-- The part of `docker.Image` that the interceptor reads. `Config` is a pointer in Go
(`*docker.Config`); `none` is the nil pointer. -/
structure Image where
  Config : Option ImageConfig

/-- The part of `docker.NetworkSettings` that the interceptor reads. -/
structure NetworkSettings where
  IPAddress : String

/-- The part of `docker.Container` that the interceptor reads; `none` is a nil pointer. -/
structure Container where
  NetworkSettings : Option NetworkSettings

/-- The part of an `http.Response` that the interceptor reads: the status code and the
result of `ioutil.ReadAll(resp.Body)`. -/
structure Response where
  StatusCode : Nat
  Body : Except ClientErr String

/-- A call to a collaborator outside the process. -/
inductive Call where
  | InspectImage (name : String)
  | InspectContainer (name : String)
  | httpGet (url : String)

/-- The proxy as the interceptor sees it: the configuration fields it reads, the
package-level values it uses that are declared in other files, and its collaborators
(taken as functions).

* `wrapper`: the token of the package-level `weaveWaitEntrypoint`;
* `hostnameMatchRegexp src repl` is `hostnameMatchRegexp.ReplaceAllString(src, repl)`;
* `weaveCIDRsFromConfig networkMode env` is the network-membership resolver: an error
  means "leave the container alone";
* `InspectImage`, `InspectContainer` are the docker client, `httpGet` is `http.Get`;
* `DefaultDomain` is `nameserver.DefaultDomain`, `HTTPPort` is `router.HTTPPort`. -/
structure Proxy where
  HostnameFromLabel : String
  HostnameReplacement : String
  WithDNS : Bool
  WithoutDNS : Bool
  weaveWaitVolume : String
  dockerBridgeIP : String
  wrapper : String
  hostnameMatchRegexp : String → String → String
  weaveCIDRsFromConfig : String → List String → Except ClientErr (List String)
  InspectImage : String → Except ClientErr Image
  InspectContainer : String → Except ClientErr Container
  httpGet : String → Except ClientErr Response
  DefaultDomain : String
  HTTPPort : Nat

/-- Modelled from the spec: the package-level `weaveWaitEntrypoint` is declared in a file
that is not part of the sources. Section 8 writes the wrapped empty entrypoint as
`[wrapper]` and an already wrapped one as `[wrapper, "sh"]`: the wrapper command is a
sequence of one token. -/
def weaveWaitEntrypoint (p : Proxy) : List String := [p.wrapper]

/-- What a mutating function leaves behind: the document (mutated in place, so also
present on failure), the error if any, and the collaborator calls made, in order. -/
structure Outcome where
  container : Obj
  err : Option Err
  calls : List Call

/-! ## Document accessors -/

/-- Modelled from the spec: `lookupObject` is declared in a file that is not part of the
sources. Section 4.1: it returns the typed value, a missing key yields the empty
mapping and is not an error, a key that holds an incompatible type fails with
`WrongType` naming the key, the expected type and the value found. A `null` counts as
absent (section 3 treats absent and null alike). -/
def lookupObject (m : Obj) (key : String) : Except Err Obj :=
  match m.get? key with
  | none => .ok []
  | some .null => .ok []
  | some (.obj o) => .ok o
  | some v => .error (.wrongType ⟨key, "object", v⟩)

/-- Modelled from the spec: the document that `lookupObject` leaves behind. The code
writes into the mapping it is handed (lines 128, 211, 236-238) and serialises the
document (line 80) without ever assigning that mapping to the document, and by section
3 the document is mutated in place and its `HostConfig.Binds` holds the helper entry
after injection, for every request. So the mapping handed out is the one the document
holds: for a missing (or null) key the empty mapping is stored under the key; a key
that holds a value is left as it is. -/
def lookupObjectStore (m : Obj) (key : String) : Obj :=
  match m.get? key with
  | none => m.set key (.obj [])
  | some .null => m.set key (.obj [])
  | some _ => m

/-- Modelled from the spec: `lookupString` is declared in a file that is not part of the
sources. Section 4.1: a missing key yields the empty string and is not an error, a key
that holds an incompatible type fails with `WrongType`. A `null` counts as absent. -/
def lookupString (m : Obj) (key : String) : Except Err String :=
  match m.get? key with
  | none => .ok ""
  | some .null => .ok ""
  | some (.str s) => .ok s
  | some v => .error (.wrongType ⟨key, "string", v⟩)

/-- The strings of an array all of whose elements are strings. -/
def stringsOf : List JVal → Option (List String)
  | [] => some []
  | .str s :: rest => (stringsOf rest).map (s :: ·)
  | _ :: _ => none

/-- Modelled from the spec: `lookupStringArray` is declared in a file that is not part of
the sources. Sections 3, 4.1 and 4.4: a missing (or null) key yields the empty
sequence and is not an error; the value may be a single string or an array of strings
(`Cmd` is read like `Entrypoint`); anything else fails with `WrongType`. -/
def lookupStringArray (m : Obj) (key : String) : Except Err (List String) :=
  match m.get? key with
  | none => .ok []
  | some .null => .ok []
  | some (.str s) => .ok [s]
  | some (.strs l) => .ok (GoStrs.elems l)
  | some (.arr l) =>
    match stringsOf l with
    | some ss => .ok ss
    | none => .error (.wrongType ⟨key, "string or array of strings", .arr l⟩)
  | some v => .error (.wrongType ⟨key, "string or array of strings", v⟩)

/-! ## The volume injector -/

/-- Go `strings.Split(s, ":")` on the characters of `s`: the fields between the colons,
always at least one. -/
def splitColon : List Char → List (List Char)
  | [] => [[]]
  | c :: rest =>
    if c = ':' then [] :: splitColon rest
    else
      match splitColon rest with
      | f :: fs => (c :: f) :: fs
      | [] => [[c]]

/-- Go `strings.Split(bind, ":")`. -/
def stringsSplit (bind : String) : List String :=
  (splitColon bind.data).map String.mk

/-- The test of the loop of `addWeaveWaitVolume`: `len(s) >= 2 && s[1] == "/w"` for
`s := strings.Split(bind, ":")`. -/
def targetsW (bind : String) : Bool :=
  match stringsSplit bind with
  | _ :: t :: _ => t == "/w"
  | _ => false

/-- The loop of `addWeaveWaitVolume` (lines 120-127): `binds` starts as the nil slice,
every bind that does not target `/w` is appended to it. -/
def bindsLoop : List String → GoStrs → GoStrs
  | [], binds => binds
  | bind :: rest, binds =>
    if targetsW bind then bindsLoop rest binds
    else bindsLoop rest (GoStrs.append binds [bind])

/-- Go `addWeaveWaitVolume`: the mapping `hostConfig` is mutated in place; the result is
the mapping left behind, or the error. -/
def addWeaveWaitVolume (p : Proxy) (hostConfig : Obj) : Except Err Obj :=
  match lookupStringArray hostConfig "Binds" with
  | .error e => .error e
  | .ok configBinds =>
    let binds := bindsLoop configBinds none
    .ok (hostConfig.set "Binds" (.strs (GoStrs.append binds [p.weaveWaitVolume ++ ":/w:ro"])))

/-! ## The entrypoint wrapper -/

/-- The loop of `setWeaveWaitEntrypoint` over a `[]interface{}` (lines 141-147): every
string is appended to `entrypoint`; `none` is the `WrongType` return. -/
def entrypointLoop : List JVal → GoStrs → Option GoStrs
  | [], entrypoint => some entrypoint
  | .str s :: rest, entrypoint => entrypointLoop rest (GoStrs.append entrypoint [s])
  | _ :: _, _ => none

/-- Lines 133-151 of `setWeaveWaitEntrypoint`: the `Entrypoint` of the document as a
string slice (`entrypoint` starts as the nil slice), or the `WrongType` error. -/
def normEntrypoint (container : Obj) : Except Err GoStrs :=
  match container.get? "Entrypoint" with
  | none => .ok none
  | some .null => .ok none
  | some (.str e) => .ok (some [e])
  | some (.strs e) => .ok e
  | some (.arr e) =>
    match entrypointLoop e none with
    | some entrypoint => .ok entrypoint
    | none => .error (.wrongType ⟨"Entrypoint", "string or array of strings", .arr e⟩)
  | some e => .error (.wrongType ⟨"Entrypoint", "string or array of strings", e⟩)

/-- Lines 182-190 of `setWeaveWaitEntrypoint`: fail when there is nothing to run,
otherwise put the wrapper in front unless the entrypoint starts with it. -/
def wrapEntrypoint (p : Proxy) (container : Obj) (entrypoint : GoStrs) (cmd : List String)
    (calls : List Call) : Outcome :=
  if entrypoint.len = 0 ∧ cmd.length = 0 then
    ⟨container, some .ErrNoCommandSpecified, calls⟩
  else if entrypoint.len = 0 ∨ entrypoint.elems.head? ≠ (weaveWaitEntrypoint p).head? then
    ⟨container.set "Entrypoint" (.strs (some (weaveWaitEntrypoint p ++ entrypoint.elems))),
      none, calls⟩
  else
    ⟨container, none, calls⟩

/-- Lines 171-179 of `setWeaveWaitEntrypoint` for an image whose `Config` pointer is not
nil (`config` is what it points to): adopt the image's command when `len(cmd) == 0`, the
image's entrypoint when `entrypoint == nil`; then the common tail. -/
def adoptImageDefaults (p : Proxy) (container : Obj) (entrypoint : GoStrs) (cmd : List String)
    (config : ImageConfig) (calls : List Call) : Outcome :=
  let cmd1 := if cmd.length = 0 then config.Cmd.elems else cmd
  let container1 :=
    if cmd.length = 0 then container.set "Cmd" (.strs config.Cmd) else container
  let entrypoint1 := if entrypoint = none then config.Entrypoint else entrypoint
  let container2 :=
    if entrypoint = none then container1.set "Entrypoint" (.strs config.Entrypoint)
    else container1
  wrapEntrypoint p container2 entrypoint1 cmd1 calls

/-- Lines 171-179 of `setWeaveWaitEntrypoint`, after a successful image inspection.
The pointer `Config` of the image is dereferenced at line 172 (when `len(cmd) == 0`) and
at line 177 (when `entrypoint == nil`) without a nil check: on an image inspected without
`Config` either of them panics, before anything is written; when neither is reached the
common tail follows. -/
def useImageDefaults (p : Proxy) (container : Obj) (entrypoint : GoStrs) (cmd : List String)
    (image : Image) (calls : List Call) : Outcome :=
  match image.Config with
  | some config => adoptImageDefaults p container entrypoint cmd config calls
  | none =>
    if cmd.length = 0 ∨ entrypoint = none then ⟨container, some .nilDereference, calls⟩
    else wrapEntrypoint p container entrypoint cmd calls

/-- Go `setWeaveWaitEntrypoint`. -/
def setWeaveWaitEntrypoint (p : Proxy) (container : Obj) : Outcome :=
  match normEntrypoint container with
  | .error e => ⟨container, some e, []⟩
  | .ok entrypoint =>
    match lookupStringArray container "Cmd" with
    | .error e => ⟨container, some e, []⟩
    | .ok cmd =>
      if entrypoint.len = 0 then
        match lookupString container "Image" with
        | .error e => ⟨container, some e, []⟩
        | .ok containerImage =>
          match p.InspectImage containerImage with
          | .error .ErrNoSuchImage =>
            ⟨container, some (.noSuchImage ⟨containerImage⟩), [.InspectImage containerImage]⟩
          | .error e => ⟨container, some (.external e), [.InspectImage containerImage]⟩
          | .ok image =>
            useImageDefaults p container entrypoint cmd image [.InspectImage containerImage]
      else
        wrapEntrypoint p container entrypoint cmd []

/-! ## The hostname resolver -/

/-- The request as the interceptor sees it: the `name` query parameter
(`r.URL.Query().Get("name")`) and the body. -/
structure Request where
  queryName : String
  Body : String

/-- Go `hostnameFromLabel`. -/
def hostnameFromLabel (p : Proxy) (hostname : String) (container : Obj) : Except Err String :=
  match lookupObject container "Labels" with
  | .error e => .error e
  | .ok labels =>
    match labels.get? p.HostnameFromLabel with
    | none => .ok hostname
    | some .null => .ok hostname
    | some (.str label) => .ok label
    | some labelIface => .error (.wrongType ⟨p.HostnameFromLabel, "string", labelIface⟩)

/-- Go `containerHostname`: the named results `(hostname, err)`; on an error of
`hostnameFromLabel` the hostname passed to the rewrite is the empty string. -/
def containerHostname (p : Proxy) (r : Request) (container : Obj) : String × Option Err :=
  let res : String × Option Err :=
    if p.HostnameFromLabel ≠ "" then
      match hostnameFromLabel p r.queryName container with
      | .ok h => (h, none)
      | .error e => ("", some e)
    else (r.queryName, none)
  (p.hostnameMatchRegexp res.1 p.HostnameReplacement, res.2)

/-- The document that `containerHostname` leaves behind: `hostnameFromLabel`, which is
called when a label key is configured, looks `Labels` up in it. -/
def containerHostnameStore (p : Proxy) (container : Obj) : Obj :=
  if p.HostnameFromLabel ≠ "" then lookupObjectStore container "Labels" else container

/-! ## The DNS configurator -/

/-- Go `MaxDockerHostname`. -/
def MaxDockerHostname : Nat := 64

/-- Go `strings.TrimSuffix(s, ".")`: one trailing full stop is removed, if there is one. -/
def trimSuffixDot (s : String) : String :=
  if s.data.getLast? = some '.' then String.mk s.data.dropLast else s

/-- Go `getDNSDomain`: the domain, whether the agent is running, and the calls made. -/
def getDNSDomain (p : Proxy) : (String × Bool) × List Call :=
  let domain := p.DefaultDomain
  match p.InspectContainer "weave" with
  | .error _ => ((domain, false), [.InspectContainer "weave"])
  | .ok weaveContainer =>
    match weaveContainer.NetworkSettings with
    | none => ((domain, false), [.InspectContainer "weave"])
    | some settings =>
      if settings.IPAddress = "" then ((domain, false), [.InspectContainer "weave"])
      else
        let url := "http://" ++ settings.IPAddress ++ ":" ++ toString p.HTTPPort ++ "/domain"
        match p.httpGet url with
        | .error _ => ((domain, false), [.InspectContainer "weave", .httpGet url])
        | .ok resp =>
          if resp.StatusCode ≠ 200 then
            ((domain, false), [.InspectContainer "weave", .httpGet url])
          else
            match resp.Body with
            | .error _ => ((domain, false), [.InspectContainer "weave", .httpGet url])
            | .ok b => ((b, true), [.InspectContainer "weave", .httpGet url])

/-- Lines 230-242 of `setWeaveDNS`: the search domains. `hostConfig` is the mapping held
by the document under `HostConfig`, so a write to it is a write to the document. -/
def setDnsSearch (container hostConfig : Obj) (hostname dnsDomain : String)
    (calls : List Call) : Outcome :=
  match lookupStringArray hostConfig "DnsSearch" with
  | .error e => ⟨container, some e, calls⟩
  | .ok dnsSearch =>
    if dnsSearch.length = 0 then
      if hostname = "" then
        ⟨container.set "HostConfig" (.obj (hostConfig.set "DnsSearch" (.strs (some [dnsDomain])))),
          none, calls⟩
      else
        ⟨container.set "HostConfig" (.obj (hostConfig.set "DnsSearch" (.strs (some ["."])))),
          none, calls⟩
    else ⟨container, none, calls⟩

/-- Lines 213-228 of `setWeaveDNS`, then the search domains: the hostname and domain
name are written when the client gave no hostname, a name is available and it fits. -/
def setHostname (container hostConfig : Obj) (name dnsDomain : String)
    (calls : List Call) : Outcome :=
  match lookupString container "Hostname" with
  | .error e => ⟨container, some e, calls⟩
  | .ok hostname =>
    if hostname = "" ∧ name ≠ "" then
      let trimmedDNSDomain := trimSuffixDot dnsDomain
      if name.utf8ByteSize + 1 + trimmedDNSDomain.utf8ByteSize > MaxDockerHostname then
        setDnsSearch container hostConfig hostname dnsDomain calls
      else
        setDnsSearch ((container.set "Hostname" (.str name)).set "Domainname"
          (.str trimmedDNSDomain)) hostConfig name dnsDomain calls
    else setDnsSearch container hostConfig hostname dnsDomain calls

/-- Go `setWeaveDNS`. Go maps are references: `hostConfig` is the mapping that the
document holds under `HostConfig` (`lookupObject` stores it there when the key is
missing), so a write to `hostConfig` shows in the document. Here mappings are values,
and the written mapping is put in the place of the one the document holds. -/
def setWeaveDNS (p : Proxy) (container : Obj) (name : String) : Outcome :=
  if p.WithoutDNS then ⟨container, none, []⟩
  else
    let dns := getDNSDomain p
    if !(dns.1.2 || p.WithDNS) then ⟨container, none, dns.2⟩
    else
      match lookupObject container "HostConfig" with
      | .error e => ⟨container, some e, dns.2⟩
      | .ok hostConfig =>
        let container1 := lookupObjectStore container "HostConfig"
        match lookupStringArray hostConfig "Dns" with
        | .error e => ⟨container1, some e, dns.2⟩
        | .ok dnsServers =>
          let hostConfig1 := hostConfig.set "Dns" (.strs (some (dnsServers ++ [p.dockerBridgeIP])))
          setHostname (container1.set "HostConfig" (.obj hostConfig1)) hostConfig1 name dns.1.1
            dns.2

/-! ## The interceptor -/

/-- The JSON codec of the transport layer, which is outside the code under study. -/
structure Codec where
  decode : String → Except ClientErr Obj
  encode : Obj → Except ClientErr String

/-- Modelled from the spec: `unmarshalRequestBody` is declared in a file that is not part
of the sources. Section 2: the transformer reads the body once and decodes it into the
document; the request keeps the body it came with. -/
def unmarshalRequestBody (c : Codec) (r : Request) : Except Err Obj :=
  match c.decode r.Body with
  | .error e => .error (.external e)
  | .ok container => .ok container

/-- Modelled from the spec: `marshalRequestBody` is declared in a file that is not part of
the sources. Section 2: the mutated document is serialised as the new request body. -/
def marshalRequestBody (c : Codec) (r : Request) (container : Obj) : Except Err Request :=
  match c.encode container with
  | .error e => .error (.external e)
  | .ok body => .ok { r with Body := body }

/-- What `InterceptRequest` leaves behind: the request, the error if any, and the
collaborator calls made, in order. -/
structure Intercepted where
  request : Request
  err : Option Err
  calls : List Call

/-- Lines 66-78 of `InterceptRequest`: the mutations of the network-enabled branch, in
their order. `container` is the document after the lookups of lines 42-60, and
`hostConfig` is the mapping that it holds under `HostConfig`. Go maps are references, so
the write of `addWeaveWaitVolume` into `hostConfig` shows in the document; here mappings
are values, and the written mapping is put in the place of the one the document holds. -/
def mutateContainer (p : Proxy) (r : Request) (container hostConfig : Obj) : Outcome :=
  match addWeaveWaitVolume p hostConfig with
  | .error e => ⟨container, some e, []⟩
  | .ok hostConfig1 =>
    let o1 := setWeaveWaitEntrypoint p (container.set "HostConfig" (.obj hostConfig1))
    match o1.err with
    | some e => ⟨o1.container, some e, o1.calls⟩
    | none =>
      match containerHostname p r o1.container with
      | (_, some e) => ⟨containerHostnameStore p o1.container, some e, o1.calls⟩
      | (hostname, none) =>
        let o2 := setWeaveDNS p (containerHostnameStore p o1.container) hostname
        ⟨o2.container, o2.err, o1.calls ++ o2.calls⟩

/-- Lines 66-80 of `InterceptRequest`: the network-enabled branch; the mutated document
is serialised as the new body when no mutation failed. -/
def interceptEnabled (c : Codec) (p : Proxy) (r : Request) (container hostConfig : Obj) :
    Intercepted :=
  let o := mutateContainer p r container hostConfig
  match o.err with
  | some e => ⟨r, some e, o.calls⟩
  | none =>
    match marshalRequestBody c r o.container with
    | .error e => ⟨r, some e, o.calls⟩
    | .ok r1 => ⟨r1, none, o.calls⟩

/-- Go `InterceptRequest`. -/
def InterceptRequest (c : Codec) (p : Proxy) (r : Request) : Intercepted :=
  match unmarshalRequestBody c r with
  | .error e => ⟨r, some e, []⟩
  | .ok container =>
    match lookupObject container "Config" with
    | .error e => ⟨r, some e, []⟩
    | .ok config =>
      match lookupObject (lookupObjectStore container "Config") "HostConfig" with
      | .error e => ⟨r, some e, []⟩
      | .ok hostConfig =>
        match lookupString hostConfig "NetworkMode" with
        | .error e => ⟨r, some e, []⟩
        | .ok networkMode =>
          match lookupStringArray config "Env" with
          | .error e => ⟨r, some e, []⟩
          | .ok env =>
            match p.weaveCIDRsFromConfig networkMode env with
            | .error _ => ⟨r, none, []⟩
            | .ok _ =>
              interceptEnabled c p r
                (lookupObjectStore (lookupObjectStore container "Config") "HostConfig")
                hostConfig

/-- Go `InterceptResponse`. -/
def InterceptResponse (r : Response) : Option Err × Response := (none, r)

/-! ## Notions of the specification and sample values -/

/-- The second colon-delimited field of a bind (its target path), when there is one. -/
def secondField (bind : String) : Option String :=
  (stringsSplit bind).get? 1

/-- What a key that `lookupObject` was asked for holds afterwards: the value it held, or
the empty mapping when it was missing or null. -/
def storedObject : Option JVal → Option JVal
  | none => some (.obj [])
  | some .null => some (.obj [])
  | some v => some v

/-- The string ends with a full stop. -/
def endsWithDot (s : String) : Prop := s.data.getLast? = some '.'

/-- A proxy for the examples: the wrapper is `/w/w`, the helper volume `/vol`; the image
`foo` has the default command `run` and no entrypoint, the image `wrapped` has the
entrypoint `/w/w sh`, the image `bare` has neither, the image `imported` is inspected
without `Config`, no other image exists; network mode
`host` is left alone; the agent is not reachable. -/
def sampleProxy : Proxy where
  HostnameFromLabel := ""
  HostnameReplacement := "$0"
  WithDNS := false
  WithoutDNS := false
  weaveWaitVolume := "/vol"
  dockerBridgeIP := "172.17.42.1"
  wrapper := "/w/w"
  hostnameMatchRegexp := fun s _ => s
  weaveCIDRsFromConfig := fun networkMode _ =>
    if networkMode = "host" then .error (.other "host mode") else .ok ["net:default"]
  InspectImage := fun n =>
    if n = "foo" then .ok ⟨some ⟨some ["run"], none⟩⟩
    else if n = "wrapped" then .ok ⟨some ⟨none, some ["/w/w", "sh"]⟩⟩
    else if n = "bare" then .ok ⟨some ⟨none, none⟩⟩
    else if n = "imported" then .ok ⟨none⟩
    else .error .ErrNoSuchImage
  InspectContainer := fun _ => .error (.other "no such container")
  httpGet := fun _ => .error (.other "unreachable")
  DefaultDomain := "weave.local."
  HTTPPort := 6784

/-- The sample proxy with a helper-volume source that contains a colon. -/
def colonProxy : Proxy := { sampleProxy with weaveWaitVolume := "a:b" }

/-- A codec for the examples: the body `host-body` decodes to a document that asks for
network mode `host`; every document encodes to `encoded`. -/
def sampleCodec : Codec where
  decode := fun body =>
    if body = "host-body" then
      .ok [("Image", .str "foo"), ("HostConfig", .obj [("NetworkMode", .str "host")])]
    else .error (.other "bad body")
  encode := fun _ => .ok "encoded"


/-- The sample proxy with DNS injection forced on: the agent is not reachable, so the
domain is the default one, `weave.local.`. -/
def dnsProxy : Proxy := { sampleProxy with WithDNS := true }

/-- The proxy `dnsProxy` with a default domain that ends in two full stops. -/
def dotsProxy : Proxy := { sampleProxy with WithDNS := true, DefaultDomain := "weave.local.." }

/-- The sample proxy with the hostname label `hostname` configured and a rewrite that
puts `h-` in front of the candidate. -/
def labelProxy : Proxy :=
  { sampleProxy with HostnameFromLabel := "hostname", hostnameMatchRegexp := fun s _ => "h-" ++ s }

/-- A codec for the examples: the body `plain-body` decodes to a document that holds only
`Image = "foo"` (so no `HostConfig` key); every document encodes to `encoded`. -/
def plainCodec : Codec where
  decode := fun body =>
    if body = "plain-body" then .ok [("Image", .str "foo")]
    else .error (.other "bad body")
  encode := fun _ => .ok "encoded"

/-! ## Lemmas on documents -/

theorem Obj.get?_set_self (m : Obj) (key : String) (v : JVal) :
    (m.set key v).get? key = some v := by
  induction m with
  | nil => simp [Obj.set, Obj.get?]
  | cons kv rest ih =>
    obtain ⟨k, w⟩ := kv
    by_cases h : k = key
    · simp [Obj.set, Obj.get?, h]
    · simp [Obj.set, Obj.get?, h, ih]

theorem Obj.get?_set_ne (m : Obj) (key key1 : String) (v : JVal) (hne : key1 ≠ key) :
    (m.set key v).get? key1 = m.get? key1 := by
  induction m with
  | nil => simp [Obj.set, Obj.get?, Ne.symm hne]
  | cons kv rest ih =>
    obtain ⟨k, w⟩ := kv
    by_cases h : k = key
    · subst h
      simp [Obj.set, Obj.get?, Ne.symm hne]
    · by_cases h1 : k = key1
      · subst h1
        simp [Obj.set, Obj.get?, h]
      · simp [Obj.set, Obj.get?, h, h1, ih]

theorem Obj.set_set (m : Obj) (key : String) (v w : JVal) :
    (m.set key v).set key w = m.set key w := by
  induction m with
  | nil => simp [Obj.set]
  | cons kv rest ih =>
    obtain ⟨k, u⟩ := kv
    by_cases h : k = key
    · simp [Obj.set, h]
    · simp [Obj.set, h, ih]

/-- A write under the key after the lookup is the write into the document. -/
theorem lookupObjectStore_set (m : Obj) (key : String) (v : JVal) :
    (lookupObjectStore m key).set key v = m.set key v := by
  unfold lookupObjectStore
  split
  · exact Obj.set_set _ _ _ _
  · exact Obj.set_set _ _ _ _
  · rfl

theorem lookupObjectStore_get?_ne (m : Obj) (key key1 : String) (hne : key1 ≠ key) :
    (lookupObjectStore m key).get? key1 = m.get? key1 := by
  unfold lookupObjectStore
  split
  · exact Obj.get?_set_ne _ _ _ _ hne
  · exact Obj.get?_set_ne _ _ _ _ hne
  · rfl

/-- After the lookup the document holds the mapping that was handed out. -/
theorem lookupObjectStore_get?_self (m o : Obj) (key : String)
    (h : lookupObject m key = .ok o) :
    (lookupObjectStore m key).get? key = some (.obj o) := by
  unfold lookupObject at h
  unfold lookupObjectStore
  cases hv : m.get? key with
  | none =>
    rw [hv] at h
    cases h
    exact Obj.get?_set_self _ _ _
  | some v =>
    rw [hv] at h
    cases v with
    | null =>
      cases h
      exact Obj.get?_set_self _ _ _
    | obj o1 =>
      cases h
      exact hv
    | _ => cases h

/-- A document that holds a mapping under the key is left as it is by the lookup. -/
theorem lookupObjectStore_of_obj (m o : Obj) (key : String)
    (h : m.get? key = some (.obj o)) : lookupObjectStore m key = m := by
  unfold lookupObjectStore
  rw [h]

theorem lookupObject_store_ne (m : Obj) (key key1 : String) (hne : key1 ≠ key) :
    lookupObject (lookupObjectStore m key) key1 = lookupObject m key1 := by
  unfold lookupObject
  rw [lookupObjectStore_get?_ne m key key1 hne]

/-! ## The volume injector: lemmas -/

theorem targetsW_iff (bind : String) : targetsW bind = true ↔ secondField bind = some "/w" := by
  unfold targetsW secondField
  rcases stringsSplit bind with _ | ⟨a, _ | ⟨b, l⟩⟩ <;> simp

theorem bindsLoop_elems (B : List String) (binds : GoStrs) :
    (bindsLoop B binds).elems = binds.elems ++ B.filter (fun b => !targetsW b) := by
  induction B generalizing binds with
  | nil => simp [bindsLoop]
  | cons b rest ih =>
    by_cases h : targetsW b = true
    · simp [bindsLoop, h, ih]
    · have e : (GoStrs.append binds [b]).elems = binds.elems ++ [b] := rfl
      simp [bindsLoop, h, ih, e]

theorem splitColon_ne_nil (cs : List Char) : splitColon cs ≠ [] := by
  cases cs with
  | nil => simp [splitColon]
  | cons c rest =>
    unfold splitColon
    split
    · simp
    · split <;> simp

theorem splitColon_append_colon (v rest : List Char) (hv : ':' ∉ v) :
    splitColon (v ++ ':' :: rest) = v :: splitColon rest := by
  induction v with
  | nil => simp [splitColon]
  | cons c cs ih =>
    have hc : c ≠ ':' := fun h => hv (by simp [h])
    have hcs : ':' ∉ cs := fun h => hv (by simp [h])
    simp [splitColon, hc, ih hcs]

theorem secondField_helper_entry (V : String) (hV : ':' ∉ V.data) :
    secondField (V ++ ":/w:ro") = some "/w" := by
  have h : (V ++ ":/w:ro").data = V.data ++ ':' :: "/w:ro".data := by
    simp [String.data_append]
  unfold secondField stringsSplit
  rw [h, splitColon_append_colon _ _ hV]
  rfl

theorem keeps_eq_not_targetsW :
    (fun b => decide (secondField b ≠ some "/w")) = (fun b => !targetsW b) := by
  funext b
  by_cases h : targetsW b = true
  · simp [h, (targetsW_iff b).1 h]
  · have h1 : secondField b ≠ some "/w" := fun hs => h ((targetsW_iff b).2 hs)
    simp [h, h1]

/-- What `addWeaveWaitVolume` writes for a well-typed `Binds`. -/
theorem addWeaveWaitVolume_eq (p : Proxy) (hostConfig : Obj) (B : List String)
    (hB : lookupStringArray hostConfig "Binds" = .ok B) :
    addWeaveWaitVolume p hostConfig
      = .ok (hostConfig.set "Binds" (.strs (some
          (B.filter (fun b => decide (secondField b ≠ some "/w"))
            ++ [p.weaveWaitVolume ++ ":/w:ro"])))) := by
  have e := bindsLoop_elems B none
  simp only [addWeaveWaitVolume, hB, GoStrs.append, e, keeps_eq_not_targetsW]
  rfl

/-! ## C1: a container that is not network-enabled is left alone -/

/-- C1: when the body decodes to a document whose `Config`, `HostConfig`,
`HostConfig.NetworkMode` and `Config.Env` are well-typed and the resolver
`weaveCIDRsFromConfig` reports an error ("not enabled"), `InterceptRequest` returns no
error, the request (its body included) is the one that came in, and no collaborator was
called: neither image inspection nor inspection of the sibling container. -/
theorem InterceptRequest_not_enabled (c : Codec) (p : Proxy) (r : Request)
    (container config hostConfig : Obj) (networkMode : String) (env : List String)
    (reason : ClientErr)
    (hBody : c.decode r.Body = .ok container)
    (hConfig : lookupObject container "Config" = .ok config)
    (hHostConfig : lookupObject container "HostConfig" = .ok hostConfig)
    (hMode : lookupString hostConfig "NetworkMode" = .ok networkMode)
    (hEnv : lookupStringArray config "Env" = .ok env)
    (hGate : p.weaveCIDRsFromConfig networkMode env = .error reason) :
    (InterceptRequest c p r).err = none ∧
      (InterceptRequest c p r).request = r ∧
      (InterceptRequest c p r).request.Body = r.Body ∧
      (InterceptRequest c p r).calls = [] ∧
      (∀ n, Call.InspectImage n ∉ (InterceptRequest c p r).calls) ∧
      (∀ n, Call.InspectContainer n ∉ (InterceptRequest c p r).calls) := by
  have h : InterceptRequest c p r = ⟨r, none, []⟩ := by
    simp [InterceptRequest, unmarshalRequestBody, hBody, hConfig, hHostConfig, hMode, hEnv,
      hGate, lookupObject_store_ne container "Config" "HostConfig" (by decide)]
  simp [h]

/-- C1 at the sample request that asks for network mode `host`: the resolver of the sample
proxy reports an error for it, and the request comes back as it was, with no call. -/
theorem InterceptRequest_not_enabled_witness :
    sampleProxy.weaveCIDRsFromConfig "host" [] = .error (.other "host mode") ∧
      (InterceptRequest sampleCodec sampleProxy ⟨"web1", "host-body"⟩).err = none ∧
      (InterceptRequest sampleCodec sampleProxy ⟨"web1", "host-body"⟩).request.Body
        = "host-body" ∧
      (InterceptRequest sampleCodec sampleProxy ⟨"web1", "host-body"⟩).calls = [] :=
  have h := InterceptRequest_not_enabled sampleCodec sampleProxy ⟨"web1", "host-body"⟩
    [("Image", .str "foo"), ("HostConfig", .obj [("NetworkMode", .str "host")])]
    [] [("NetworkMode", .str "host")] "host" [] (.other "host mode") rfl rfl rfl rfl rfl rfl
  ⟨rfl, h.1, h.2.2.1, h.2.2.2.1⟩

/-! ## C2, C3: the volume injector -/

/-- C2: for a well-typed `Binds` (the sequence `B`, possibly empty or absent)
`addWeaveWaitVolume` does not fail and sets `Binds` to the entries of `B` whose second
colon-delimited field is not `/w`, in their order, followed by the one entry
`V:/w:ro` for the helper-volume source `V`; every entry of `B` that does not target `/w`
is still there. -/
theorem addWeaveWaitVolume_binds (p : Proxy) (hostConfig : Obj) (B : List String)
    (hB : lookupStringArray hostConfig "Binds" = .ok B) :
    addWeaveWaitVolume p hostConfig
        = .ok (hostConfig.set "Binds" (.strs (some
            (B.filter (fun b => decide (secondField b ≠ some "/w"))
              ++ [p.weaveWaitVolume ++ ":/w:ro"])))) ∧
      ∀ b ∈ B, secondField b ≠ some "/w" →
        b ∈ B.filter (fun b => decide (secondField b ≠ some "/w"))
              ++ [p.weaveWaitVolume ++ ":/w:ro"] := by
  refine ⟨addWeaveWaitVolume_eq p hostConfig B hB, ?_⟩
  intro b hb hne
  simp [List.mem_filter, hb, hne]

/-- C2 at `Binds = ["/a:/b", "/old:/w"]` and the helper volume `/vol`: the result is
`["/a:/b", "/vol:/w:ro"]`, and `/a:/b` is still there. -/
theorem addWeaveWaitVolume_binds_witness :
    lookupStringArray [("Binds", .arr [.str "/a:/b", .str "/old:/w"])] "Binds"
        = .ok ["/a:/b", "/old:/w"] ∧
      addWeaveWaitVolume sampleProxy [("Binds", .arr [.str "/a:/b", .str "/old:/w"])]
        = .ok [("Binds", .strs (some ["/a:/b", "/vol:/w:ro"]))] ∧
      "/a:/b" ∈ ["/a:/b", "/vol:/w:ro"] :=
  have h := addWeaveWaitVolume_binds sampleProxy
    [("Binds", .arr [.str "/a:/b", .str "/old:/w"])] ["/a:/b", "/old:/w"] rfl
  ⟨rfl, h.1, h.2 "/a:/b" (List.Mem.head _) (by decide)⟩

/-- C3 as stated fails: with the helper-volume source `a:b` and no binds, the only entry
of the result is `a:b:/w:ro`, whose second colon-delimited field is `b`, so no entry
of the result targets `/w`. -/
theorem addWeaveWaitVolume_colon_source_counterexample :
    addWeaveWaitVolume colonProxy [] = .ok [("Binds", .strs (some ["a:b:/w:ro"]))] ∧
      secondField "a:b:/w:ro" = some "b" ∧
      (["a:b:/w:ro"].filter (fun b => decide (secondField b = some "/w"))).length = 0 := by
  refine ⟨rfl, by decide, by decide⟩

/-- C3, amended: when the helper-volume source contains no colon, for every well-typed
`Binds` the sequence that `addWeaveWaitVolume` writes has exactly one entry whose second
colon-delimited field is `/w`, and that entry is its last element. -/
theorem addWeaveWaitVolume_one_helper_last (p : Proxy) (hostConfig : Obj) (B : List String)
    (hB : lookupStringArray hostConfig "Binds" = .ok B)
    (hV : ':' ∉ p.weaveWaitVolume.data) :
    ∃ hc l, addWeaveWaitVolume p hostConfig = .ok hc ∧
      hc.get? "Binds" = some (.strs (some l)) ∧
      (l.filter (fun b => decide (secondField b = some "/w"))).length = 1 ∧
      l.getLast? = some (p.weaveWaitVolume ++ ":/w:ro") ∧
      secondField (p.weaveWaitVolume ++ ":/w:ro") = some "/w" := by
  have hlast := secondField_helper_entry p.weaveWaitVolume hV
  refine ⟨_, _, addWeaveWaitVolume_eq p hostConfig B hB, Obj.get?_set_self _ _ _, ?_,
    by simp, hlast⟩
  have h0 : (B.filter (fun b => decide (secondField b ≠ some "/w"))).filter
      (fun b => decide (secondField b = some "/w")) = [] := by
    simp [List.filter_eq_nil_iff]
  simp [List.filter_append, h0, hlast]

/-- C3, amended, at `Binds = ["/a:/b", "/old:/w"]` and the helper volume `/vol`. -/
theorem addWeaveWaitVolume_one_helper_last_witness :
    ∃ hc l, addWeaveWaitVolume sampleProxy [("Binds", .arr [.str "/a:/b", .str "/old:/w"])]
        = .ok hc ∧
      hc.get? "Binds" = some (.strs (some l)) ∧
      (l.filter (fun b => decide (secondField b = some "/w"))).length = 1 ∧
      l.getLast? = some (sampleProxy.weaveWaitVolume ++ ":/w:ro") ∧
      secondField (sampleProxy.weaveWaitVolume ++ ":/w:ro") = some "/w" :=
  addWeaveWaitVolume_one_helper_last sampleProxy
    [("Binds", .arr [.str "/a:/b", .str "/old:/w"])] ["/a:/b", "/old:/w"] rfl (by decide)

/-! ## The entrypoint wrapper: lemmas -/

theorem normEntrypoint_set_ne (c : Obj) (key : String) (v : JVal) (hne : key ≠ "Entrypoint") :
    normEntrypoint (c.set key v) = normEntrypoint c := by
  unfold normEntrypoint
  rw [Obj.get?_set_ne c key "Entrypoint" v (Ne.symm hne)]

theorem normEntrypoint_set_strs (c : Obj) (e : GoStrs) :
    normEntrypoint (c.set "Entrypoint" (.strs e)) = .ok e := by
  unfold normEntrypoint
  rw [Obj.get?_set_self]

theorem lookupStringArray_set_ne (c : Obj) (key key1 : String) (v : JVal) (hne : key1 ≠ key) :
    lookupStringArray (c.set key v) key1 = lookupStringArray c key1 := by
  unfold lookupStringArray
  rw [Obj.get?_set_ne c key key1 v hne]

theorem lookupStringArray_set_strs (c : Obj) (key : String) (l : GoStrs) :
    lookupStringArray (c.set key (.strs l)) key = .ok l.elems := by
  unfold lookupStringArray
  rw [Obj.get?_set_self]

/-- The common tail keeps what the caller knows about the document: when it succeeds, the
entrypoint of the document starts with the wrapper and the command is the one given. -/
theorem wrapEntrypoint_success (p : Proxy) (c : Obj) (ep : GoStrs) (cmd : List String)
    (calls : List Call) (hE : normEntrypoint c = .ok ep)
    (hC : lookupStringArray c "Cmd" = .ok cmd)
    (hok : (wrapEntrypoint p c ep cmd calls).err = none) :
    normEntrypoint (wrapEntrypoint p c ep cmd calls).container
        = .ok (some (if ep.elems.head? = some p.wrapper then ep.elems
            else p.wrapper :: ep.elems)) ∧
      lookupStringArray (wrapEntrypoint p c ep cmd calls).container "Cmd" = .ok cmd := by
  unfold wrapEntrypoint at hok ⊢
  by_cases h1 : ep.len = 0 ∧ cmd.length = 0
  · simp [h1] at hok
  · by_cases h2 : ep.len = 0 ∨ ep.elems.head? ≠ (weaveWaitEntrypoint p).head?
    · simp only [h1, h2, if_false, if_true]
      refine ⟨?_, ?_⟩
      · rw [normEntrypoint_set_strs]
        have h3 : ep.elems.head? ≠ some p.wrapper := by
          rcases h2 with h2 | h2
          · have : ep.elems = [] := List.length_eq_zero.1 h2
            simp [this]
          · simpa [weaveWaitEntrypoint] using h2
        simp [h3, weaveWaitEntrypoint]
      · rw [lookupStringArray_set_ne _ _ _ _ (by decide)]
        exact hC
    · simp only [h1, h2, if_false]
      push_neg at h2
      have h3 : ep.elems.head? = some p.wrapper := by
        simpa [weaveWaitEntrypoint] using h2.2
      refine ⟨?_, hC⟩
      rw [hE, if_pos h3]
      cases ep with
      | none => simp [GoStrs.elems] at h3
      | some l => rfl

/-- The state in which `setWeaveWaitEntrypoint` reaches its common tail. -/
theorem adoptImageDefaults_success (p : Proxy) (c : Obj) (ep : GoStrs) (cmd : List String)
    (config : ImageConfig) (calls : List Call) (hE : normEntrypoint c = .ok ep)
    (hC : lookupStringArray c "Cmd" = .ok cmd)
    (hok : (adoptImageDefaults p c ep cmd config calls).err = none) :
    normEntrypoint (adoptImageDefaults p c ep cmd config calls).container
        = .ok (some
            (if (if ep = none then config.Entrypoint else ep).elems.head? = some p.wrapper
              then (if ep = none then config.Entrypoint else ep).elems
              else p.wrapper :: (if ep = none then config.Entrypoint else ep).elems)) ∧
      lookupStringArray (adoptImageDefaults p c ep cmd config calls).container "Cmd"
        = .ok (if cmd.length = 0 then config.Cmd.elems else cmd) := by
  unfold adoptImageDefaults at hok ⊢
  apply wrapEntrypoint_success _ _ _ _ _ _ _ hok
  · by_cases he : ep = none
    · simp only [he, if_true]
      rw [normEntrypoint_set_strs]
    · simp only [he, if_false]
      by_cases hc : cmd.length = 0
      · simp only [hc, if_true]
        rw [normEntrypoint_set_ne _ _ _ (by decide)]
        exact hE
      · simp only [hc, if_false]
        exact hE
  · have hcmd : lookupStringArray
        (if cmd.length = 0 then c.set "Cmd" (.strs config.Cmd) else c) "Cmd"
        = .ok (if cmd.length = 0 then config.Cmd.elems else cmd) := by
      by_cases hc : cmd.length = 0
      · simp only [hc, if_true]
        rw [lookupStringArray_set_strs]
      · simp only [hc, if_false]
        exact hC
    by_cases he : ep = none
    · simp only [he, if_true]
      rw [lookupStringArray_set_ne _ _ _ _ (by decide)]
      exact hcmd
    · simp only [he, if_false]
      exact hcmd

/-- When `setWeaveWaitEntrypoint` succeeds, the entrypoint of the document it leaves
starts with the wrapper, and its command is well-typed. -/
theorem setWeaveWaitEntrypoint_success (p : Proxy) (d : Obj)
    (hok : (setWeaveWaitEntrypoint p d).err = none) :
    ∃ rest cmd, normEntrypoint (setWeaveWaitEntrypoint p d).container
        = .ok (some (p.wrapper :: rest)) ∧
      lookupStringArray (setWeaveWaitEntrypoint p d).container "Cmd" = .ok cmd := by
  have key : ∀ (l : List String), ∃ rest,
      (if l.head? = some p.wrapper then l else p.wrapper :: l) = p.wrapper :: rest := by
    intro l
    by_cases h : l.head? = some p.wrapper
    · cases l with
      | nil => simp at h
      | cons a t =>
        simp only [List.head?_cons, Option.some.injEq] at h
        exact ⟨t, by simp [h]⟩
    · exact ⟨l, by simp [h]⟩
  unfold setWeaveWaitEntrypoint at hok ⊢
  cases hE : normEntrypoint d with
  | error e => simp [hE] at hok
  | ok ep =>
    cases hC : lookupStringArray d "Cmd" with
    | error e => simp [hE, hC] at hok
    | ok cmd =>
      simp only [hE, hC] at hok ⊢
      by_cases hlen : ep.len = 0
      · simp only [hlen, if_true] at hok ⊢
        cases hI : lookupString d "Image" with
        | error e => simp [hI] at hok
        | ok name =>
          simp only [hI] at hok ⊢
          cases hP : p.InspectImage name with
          | error e => cases e <;> simp [hP] at hok
          | ok image =>
            simp only [hP] at hok ⊢
            unfold useImageDefaults at hok ⊢
            cases hCfg : image.Config with
            | some config =>
              simp only [hCfg] at hok ⊢
              obtain ⟨h1, h2⟩ := adoptImageDefaults_success p d ep cmd config _ hE hC hok
              obtain ⟨rest, hr⟩ := key (if ep = none then config.Entrypoint else ep).elems
              exact ⟨rest, _, by rw [h1, hr], h2⟩
            | none =>
              simp only [hCfg] at hok ⊢
              by_cases hd : cmd.length = 0 ∨ ep = none
              · rw [if_pos hd] at hok
                cases hok
              · simp only [hd, if_false] at hok ⊢
                obtain ⟨h1, h2⟩ := wrapEntrypoint_success p d ep cmd _ hE hC hok
                obtain ⟨rest, hr⟩ := key ep.elems
                exact ⟨rest, _, by rw [h1, hr], h2⟩
      · simp only [hlen, if_false] at hok ⊢
        obtain ⟨h1, h2⟩ := wrapEntrypoint_success p d ep cmd _ hE hC hok
        obtain ⟨rest, hr⟩ := key ep.elems
        exact ⟨rest, _, by rw [h1, hr], h2⟩

/-- An entrypoint that starts with the wrapper, with a well-typed command, is left as it
is, without any call. -/
theorem setWeaveWaitEntrypoint_wrapped (p : Proxy) (doc : Obj) (rest cmd : List String)
    (hE : normEntrypoint doc = .ok (some (p.wrapper :: rest)))
    (hC : lookupStringArray doc "Cmd" = .ok cmd) :
    setWeaveWaitEntrypoint p doc = ⟨doc, none, []⟩ := by
  simp [setWeaveWaitEntrypoint, hE, hC, GoStrs.len, GoStrs.elems, wrapEntrypoint,
    weaveWaitEntrypoint]

/-! ## C4, C5: the wrapper is put in front once -/

/-- C4: when the `Entrypoint` of the document already starts with the wrapper command and
`Cmd` is well-typed, `setWeaveWaitEntrypoint` succeeds, calls nobody and leaves the whole
document (its `Entrypoint` included) as it was; and on every document on which
`setWeaveWaitEntrypoint` succeeds, a second application succeeds too and leaves the
document that the first one produced. -/
theorem setWeaveWaitEntrypoint_idempotent (p : Proxy) (doc : Obj) (rest cmd : List String)
    (hE : normEntrypoint doc = .ok (some (weaveWaitEntrypoint p ++ rest)))
    (hC : lookupStringArray doc "Cmd" = .ok cmd) :
    (setWeaveWaitEntrypoint p doc).err = none ∧
      (setWeaveWaitEntrypoint p doc).container = doc ∧
      normEntrypoint (setWeaveWaitEntrypoint p doc).container
        = .ok (some (weaveWaitEntrypoint p ++ rest)) ∧
      (setWeaveWaitEntrypoint p doc).calls = [] ∧
      ∀ d : Obj, (setWeaveWaitEntrypoint p d).err = none →
        (setWeaveWaitEntrypoint p (setWeaveWaitEntrypoint p d).container).err = none ∧
        (setWeaveWaitEntrypoint p (setWeaveWaitEntrypoint p d).container).container
          = (setWeaveWaitEntrypoint p d).container := by
  have h := setWeaveWaitEntrypoint_wrapped p doc rest cmd hE hC
  refine ⟨by rw [h], by rw [h], by rw [h]; exact hE, by rw [h], ?_⟩
  intro d hok
  obtain ⟨rest1, cmd1, h1, h2⟩ := setWeaveWaitEntrypoint_success p d hok
  rw [setWeaveWaitEntrypoint_wrapped p _ rest1 cmd1 h1 h2]
  exact ⟨rfl, rfl⟩

/-- C4 at the document with `Entrypoint = ["/w/w", "sh"]`, and, for the second part, at the
document that names the image `foo` and is wrapped by the first application. -/
theorem setWeaveWaitEntrypoint_idempotent_witness :
    normEntrypoint [("Entrypoint", .arr [.str "/w/w", .str "sh"])]
        = .ok (some (weaveWaitEntrypoint sampleProxy ++ ["sh"])) ∧
      (setWeaveWaitEntrypoint sampleProxy [("Entrypoint", .arr [.str "/w/w", .str "sh"])]).err
        = none ∧
      (setWeaveWaitEntrypoint sampleProxy
        [("Entrypoint", .arr [.str "/w/w", .str "sh"])]).container
        = [("Entrypoint", .arr [.str "/w/w", .str "sh"])] ∧
      (setWeaveWaitEntrypoint sampleProxy
        [("Entrypoint", .arr [.str "/w/w", .str "sh"])]).calls = [] ∧
      (setWeaveWaitEntrypoint sampleProxy
        (setWeaveWaitEntrypoint sampleProxy [("Image", .str "foo")]).container).container
        = (setWeaveWaitEntrypoint sampleProxy [("Image", .str "foo")]).container :=
  have h := setWeaveWaitEntrypoint_idempotent sampleProxy
    [("Entrypoint", .arr [.str "/w/w", .str "sh"])] ["sh"] [] rfl rfl
  ⟨rfl, h.1, h.2.1, h.2.2.2.1, (h.2.2.2.2 [("Image", .str "foo")] rfl).2⟩

/-- C5: whenever `setWeaveWaitEntrypoint` returns without error, whatever the document and
whatever image inspection answers, the `Entrypoint` of the document, normalised to a
sequence of strings, begins with the wrapper command `weaveWaitEntrypoint`. -/
theorem setWeaveWaitEntrypoint_starts_with_wrapper (p : Proxy) (doc : Obj)
    (hok : (setWeaveWaitEntrypoint p doc).err = none) :
    ∃ rest, normEntrypoint (setWeaveWaitEntrypoint p doc).container
      = .ok (some (weaveWaitEntrypoint p ++ rest)) := by
  obtain ⟨rest, _, h, _⟩ := setWeaveWaitEntrypoint_success p doc hok
  exact ⟨rest, h⟩

/-- C5 at the document with `Entrypoint = "run.sh"` (a single string): the call succeeds
and the entrypoint starts with the wrapper. -/
theorem setWeaveWaitEntrypoint_starts_with_wrapper_witness :
    (setWeaveWaitEntrypoint sampleProxy [("Entrypoint", .str "run.sh")]).err = none ∧
      ∃ rest, normEntrypoint
          (setWeaveWaitEntrypoint sampleProxy [("Entrypoint", .str "run.sh")]).container
        = .ok (some (weaveWaitEntrypoint sampleProxy ++ rest)) :=
  ⟨rfl, setWeaveWaitEntrypoint_starts_with_wrapper sampleProxy
    [("Entrypoint", .str "run.sh")] rfl⟩

theorem wrapEntrypoint_calls (p : Proxy) (c : Obj) (ep : GoStrs) (cmd : List String)
    (calls : List Call) : (wrapEntrypoint p c ep cmd calls).calls = calls := by
  unfold wrapEntrypoint
  split
  · rfl
  · split <;> rfl

theorem wrapEntrypoint_err (p : Proxy) (c : Obj) (ep : GoStrs) (cmd : List String)
    (calls : List Call) :
    (wrapEntrypoint p c ep cmd calls).err
      = if ep.len = 0 ∧ cmd.length = 0 then some .ErrNoCommandSpecified else none := by
  unfold wrapEntrypoint
  split
  · rfl
  · split <;> rfl

theorem normEntrypoint_error (d : Obj) (e : Err) (h : normEntrypoint d = .error e) :
    ∃ w, e = .wrongType w := by
  unfold normEntrypoint at h
  split at h <;> first
    | (cases h; done)
    | (cases h; exact ⟨_, rfl⟩)
    | (split at h <;> first | (cases h; done) | (cases h; exact ⟨_, rfl⟩))

theorem lookupStringArray_error (d : Obj) (key : String) (e : Err)
    (h : lookupStringArray d key = .error e) : ∃ w, e = .wrongType w := by
  unfold lookupStringArray at h
  split at h <;> first
    | (cases h; done)
    | (cases h; exact ⟨_, rfl⟩)
    | (split at h <;> first | (cases h; done) | (cases h; exact ⟨_, rfl⟩))

theorem lookupString_error (d : Obj) (key : String) (e : Err)
    (h : lookupString d key = .error e) : ∃ w, e = .wrongType w := by
  unfold lookupString at h
  split at h <;> first
    | (cases h; done)
    | (cases h; exact ⟨_, rfl⟩)

theorem entrypointLoop_result (e : List JVal) (acc r : GoStrs)
    (h : entrypointLoop e acc = some r) : (e = [] ∧ r = acc) ∨ 0 < r.len := by
  induction e generalizing acc with
  | nil =>
    simp only [entrypointLoop, Option.some.injEq] at h
    exact Or.inl ⟨rfl, h.symm⟩
  | cons x rest ih =>
    cases x with
    | str s =>
      simp only [entrypointLoop] at h
      rcases ih _ h with ⟨_, hr⟩ | hr
      · right
        rw [hr]
        simp [GoStrs.append, GoStrs.len, GoStrs.elems]
      · exact Or.inr hr
    | _ => simp [entrypointLoop] at h

/-- An entrypoint that normalises to an empty sequence is the nil slice, unless the
document holds an empty, non-nil Go string slice. -/
theorem normEntrypoint_empty (d : Obj) (ep : GoStrs)
    (hJ : d.get? "Entrypoint" ≠ some (.strs (some [])))
    (hE : normEntrypoint d = .ok ep) (hlen : ep.len = 0) : ep = none := by
  unfold normEntrypoint at hE
  split at hE
  · cases hE; rfl
  · cases hE; rfl
  · cases hE; simp [GoStrs.len, GoStrs.elems] at hlen
  · rename_i e he
    cases hE
    cases ep with
    | none => rfl
    | some l =>
      have : l = [] := List.length_eq_zero.1 hlen
      subst this
      exact absurd he hJ
  · split at hE
    · rename_i r hr
      cases hE
      rcases entrypointLoop_result _ _ _ hr with ⟨_, h⟩ | h
      · exact h
      · omega
    · cases hE
  · cases hE

/-- The outcome of `setWeaveWaitEntrypoint` when the entrypoint normalises to an empty
sequence and the image is inspected with success. -/
theorem setWeaveWaitEntrypoint_inspected (p : Proxy) (doc : Obj) (ep : GoStrs)
    (cmd : List String) (name : String) (img : Image)
    (hE : normEntrypoint doc = .ok ep) (hlen : ep.len = 0)
    (hC : lookupStringArray doc "Cmd" = .ok cmd)
    (hI : lookupString doc "Image" = .ok name)
    (hP : p.InspectImage name = .ok img) :
    setWeaveWaitEntrypoint p doc
      = useImageDefaults p doc ep cmd img [.InspectImage name] := by
  simp [setWeaveWaitEntrypoint, hE, hlen, hC, hI, hP]

/-- The same for an image that has a `Config`. -/
theorem setWeaveWaitEntrypoint_inspected_config (p : Proxy) (doc : Obj) (ep : GoStrs)
    (cmd : List String) (name : String) (img : Image) (config : ImageConfig)
    (hE : normEntrypoint doc = .ok ep) (hlen : ep.len = 0)
    (hC : lookupStringArray doc "Cmd" = .ok cmd)
    (hI : lookupString doc "Image" = .ok name)
    (hP : p.InspectImage name = .ok img) (hCfg : img.Config = some config) :
    setWeaveWaitEntrypoint p doc
      = adoptImageDefaults p doc ep cmd config [.InspectImage name] := by
  simp [setWeaveWaitEntrypoint, useImageDefaults, hE, hlen, hC, hI, hP, hCfg]

theorem adoptImageDefaults_err (p : Proxy) (c : Obj) (ep : GoStrs) (cmd : List String)
    (config : ImageConfig) (calls : List Call) :
    (adoptImageDefaults p c ep cmd config calls).err
      = if (if ep = none then config.Entrypoint else ep).len = 0 ∧
            (if cmd.length = 0 then config.Cmd.elems else cmd).length = 0
        then some .ErrNoCommandSpecified else none := by
  unfold adoptImageDefaults
  rw [wrapEntrypoint_err]

theorem adoptImageDefaults_calls (p : Proxy) (c : Obj) (ep : GoStrs) (cmd : List String)
    (config : ImageConfig) (calls : List Call) :
    (adoptImageDefaults p c ep cmd config calls).calls = calls := by
  unfold adoptImageDefaults
  rw [wrapEntrypoint_calls]

theorem useImageDefaults_calls (p : Proxy) (c : Obj) (ep : GoStrs) (cmd : List String)
    (image : Image) (calls : List Call) :
    (useImageDefaults p c ep cmd image calls).calls = calls := by
  unfold useImageDefaults
  split
  · exact adoptImageDefaults_calls _ _ _ _ _ _
  · split
    · rfl
    · exact wrapEntrypoint_calls _ _ _ _ _

/-- After the inspection the call ends with `nil`, with `ErrNoCommandSpecified`, or in
the panic of a nil `Config`. -/
theorem useImageDefaults_err_cases (p : Proxy) (c : Obj) (ep : GoStrs) (cmd : List String)
    (image : Image) (calls : List Call) :
    (useImageDefaults p c ep cmd image calls).err = none ∨
      (useImageDefaults p c ep cmd image calls).err = some .ErrNoCommandSpecified ∨
      (useImageDefaults p c ep cmd image calls).err = some .nilDereference := by
  have key : ∀ (c : Prop) [Decidable c],
      (if c then some Err.ErrNoCommandSpecified else none) = none ∨
      (if c then some Err.ErrNoCommandSpecified else none) = some .ErrNoCommandSpecified ∨
      (if c then some Err.ErrNoCommandSpecified else none) = some .nilDereference := by
    intro c _
    by_cases h : c <;> simp [h]
  unfold useImageDefaults
  split
  · rw [adoptImageDefaults_err]
    exact key _
  · split
    · exact Or.inr (Or.inr rfl)
    · rw [wrapEntrypoint_err]
      exact key _

/-! ## C6: the defaults of the image -/

/-- C6 as stated fails: the document has no `Entrypoint` and names the image `wrapped`,
whose default entrypoint is `["/w/w", "sh"]` and so starts with the wrapper already.
The call succeeds and the entrypoint is the one of the image, not the wrapper followed
by it. -/
theorem setWeaveWaitEntrypoint_wrapped_image_counterexample :
    sampleProxy.InspectImage "wrapped" = .ok ⟨some ⟨none, some ["/w/w", "sh"]⟩⟩ ∧
      (setWeaveWaitEntrypoint sampleProxy [("Image", .str "wrapped"), ("Cmd", .str "x")]).err
        = none ∧
      normEntrypoint
        (setWeaveWaitEntrypoint sampleProxy
          [("Image", .str "wrapped"), ("Cmd", .str "x")]).container
        = .ok (some ["/w/w", "sh"]) ∧
      (some ["/w/w", "sh"] : GoStrs)
        ≠ some (weaveWaitEntrypoint sampleProxy ++ ["/w/w", "sh"]) := by
  refine ⟨rfl, rfl, rfl, by decide⟩

/-- C6, amended: for a document whose `Entrypoint` is absent, null or an empty array (it
normalises to the nil sequence), whose `Cmd` is well-typed and whose image is inspected
with success, when the resulting entrypoint and command are not both empty,
`setWeaveWaitEntrypoint` succeeds after that one inspection; the `Cmd` of the document is
then the client's when that was non-empty and the image's otherwise, and its `Entrypoint`
is the wrapper followed by the image's entrypoint, unless the image's entrypoint starts
with the wrapper already, in which case it is the image's entrypoint itself. -/
theorem setWeaveWaitEntrypoint_image_defaults (p : Proxy) (doc : Obj) (cmd : List String)
    (name : String) (config : ImageConfig)
    (hE : normEntrypoint doc = .ok none)
    (hC : lookupStringArray doc "Cmd" = .ok cmd)
    (hI : lookupString doc "Image" = .ok name)
    (hP : p.InspectImage name = .ok ⟨some config⟩)
    (hrun : ¬ (config.Entrypoint.len = 0 ∧
      (if cmd.length = 0 then config.Cmd.elems else cmd).length = 0)) :
    (setWeaveWaitEntrypoint p doc).err = none ∧
      (setWeaveWaitEntrypoint p doc).calls = [.InspectImage name] ∧
      lookupStringArray (setWeaveWaitEntrypoint p doc).container "Cmd"
        = .ok (if cmd.length = 0 then config.Cmd.elems else cmd) ∧
      normEntrypoint (setWeaveWaitEntrypoint p doc).container
        = .ok (some (if config.Entrypoint.elems.head? = (weaveWaitEntrypoint p).head?
            then config.Entrypoint.elems
            else weaveWaitEntrypoint p ++ config.Entrypoint.elems)) := by
  have h := setWeaveWaitEntrypoint_inspected_config p doc none cmd name ⟨some config⟩ config
    hE rfl hC hI hP rfl
  have herr : (setWeaveWaitEntrypoint p doc).err = none := by
    rw [h, adoptImageDefaults_err]
    simp only [if_true]
    rw [if_neg hrun]
  have hs := adoptImageDefaults_success p doc none cmd config [.InspectImage name] hE hC
    (by rw [← h]; exact herr)
  refine ⟨herr, by rw [h, adoptImageDefaults_calls], by rw [h]; exact hs.2, ?_⟩
  rw [h, hs.1]
  simp [weaveWaitEntrypoint]

/-- C6, amended, at the example of the specification: no `Entrypoint`, no `Cmd`, the image
`foo` with the default command `run` and no entrypoint; the result has `Cmd = ["run"]`
and `Entrypoint = [wrapper]`. -/
theorem setWeaveWaitEntrypoint_image_defaults_witness :
    (setWeaveWaitEntrypoint sampleProxy [("Image", .str "foo")]).err = none ∧
      (setWeaveWaitEntrypoint sampleProxy [("Image", .str "foo")]).calls
        = [.InspectImage "foo"] ∧
      lookupStringArray (setWeaveWaitEntrypoint sampleProxy [("Image", .str "foo")]).container
        "Cmd" = .ok ["run"] ∧
      normEntrypoint (setWeaveWaitEntrypoint sampleProxy [("Image", .str "foo")]).container
        = .ok (some ["/w/w"]) :=
  setWeaveWaitEntrypoint_image_defaults sampleProxy [("Image", .str "foo")] []
    "foo" ⟨some ["run"], none⟩ rfl rfl rfl rfl (by decide)

/-! ## C7: nothing to run -/

/-- On a document as a request body decodes to (its `Entrypoint` is not an empty, non-nil
Go string slice), `setWeaveWaitEntrypoint` ends with `ErrNoCommandSpecified` exactly when
the `Entrypoint` is empty or absent, the `Cmd` is empty or absent, and the image is
inspected with success and has a `Config` whose command and entrypoint are both empty. -/
theorem setWeaveWaitEntrypoint_no_command_config (p : Proxy) (doc : Obj)
    (hJ : doc.get? "Entrypoint" ≠ some (.strs (some []))) :
    (setWeaveWaitEntrypoint p doc).err = some .ErrNoCommandSpecified ↔
      ∃ ep name config, normEntrypoint doc = .ok ep ∧ ep.len = 0 ∧
        lookupStringArray doc "Cmd" = .ok [] ∧
        lookupString doc "Image" = .ok name ∧
        p.InspectImage name = .ok ⟨some config⟩ ∧
        config.Cmd.len = 0 ∧ config.Entrypoint.len = 0 := by
  constructor
  · intro herr
    cases hE : normEntrypoint doc with
    | error e =>
      obtain ⟨w, hw⟩ := normEntrypoint_error doc e hE
      simp [setWeaveWaitEntrypoint, hE, hw] at herr
    | ok ep =>
      cases hC : lookupStringArray doc "Cmd" with
      | error e =>
        obtain ⟨w, hw⟩ := lookupStringArray_error doc "Cmd" e hC
        simp [setWeaveWaitEntrypoint, hE, hC, hw] at herr
      | ok cmd =>
        by_cases hlen : ep.len = 0
        · cases hI : lookupString doc "Image" with
          | error e =>
            obtain ⟨w, hw⟩ := lookupString_error doc "Image" e hI
            simp [setWeaveWaitEntrypoint, hE, hC, hlen, hI, hw] at herr
          | ok name =>
            cases hP : p.InspectImage name with
            | error e => cases e <;> simp [setWeaveWaitEntrypoint, hE, hC, hlen, hI, hP] at herr
            | ok img =>
              have hnil : ep = none := normEntrypoint_empty doc ep hJ hE hlen
              subst hnil
              obtain ⟨cfg⟩ := img
              cases cfg with
              | none =>
                rw [setWeaveWaitEntrypoint_inspected p doc none cmd name ⟨none⟩ hE hlen hC hI
                  hP] at herr
                simp [useImageDefaults] at herr
              | some config =>
                rw [setWeaveWaitEntrypoint_inspected_config p doc none cmd name ⟨some config⟩
                  config hE hlen hC hI hP rfl, adoptImageDefaults_err] at herr
                by_cases hboth : config.Entrypoint.len = 0 ∧
                    (if cmd.length = 0 then config.Cmd.elems else cmd).length = 0
                · obtain ⟨hie, hic⟩ := hboth
                  by_cases hc : cmd.length = 0
                  · have hcmd : cmd = [] := List.length_eq_zero.1 hc
                    subst hcmd
                    simp only [List.length_nil, if_true] at hic
                    exact ⟨none, name, config, rfl, hlen, rfl, rfl, hP, hic, hie⟩
                  · simp only [hc, if_false] at hic
                · simp only [if_true] at herr hboth
                  rw [if_neg hboth] at herr
                  cases herr
        · have h : setWeaveWaitEntrypoint p doc = wrapEntrypoint p doc ep cmd [] := by
            simp [setWeaveWaitEntrypoint, hE, hC, hlen]
          rw [h, wrapEntrypoint_err] at herr
          simp [hlen] at herr
  · rintro ⟨ep, name, config, hE, hlen, hC, hI, hP, hic, hie⟩
    rw [setWeaveWaitEntrypoint_inspected_config p doc ep [] name ⟨some config⟩ config hE hlen
      hC hI hP rfl, adoptImageDefaults_err]
    have hnil : ep = none := normEntrypoint_empty doc ep hJ hE hlen
    subst hnil
    have hic1 : config.Cmd.elems.length = 0 := hic
    simp [hie, hic1]

/-- C7 fails on the code: the document names the image `imported`, which is inspected
with success but without `Config`, so it has no default command and no default
entrypoint, and the request gives neither. The claim asks for `ErrNoCommandSpecified`;
the code dereferences the nil `Config` at line 172 and panics before it reaches the test
of line 182. For the image `bare`, which has an empty `Config`, the error is returned. -/
theorem setWeaveWaitEntrypoint_nil_config_panics :
    sampleProxy.InspectImage "imported" = .ok ⟨none⟩ ∧
      normEntrypoint [("Image", .str "imported")] = .ok none ∧
      lookupStringArray [("Image", .str "imported")] "Cmd" = .ok [] ∧
      (setWeaveWaitEntrypoint sampleProxy [("Image", .str "imported")]).err
        = some .nilDereference ∧
      (setWeaveWaitEntrypoint sampleProxy [("Image", .str "imported")]).calls
        = [.InspectImage "imported"] ∧
      (setWeaveWaitEntrypoint sampleProxy [("Image", .str "bare")]).err
        = some .ErrNoCommandSpecified :=
  ⟨rfl, rfl, rfl, rfl, rfl, rfl⟩

/-! ## C8: an image that does not exist -/

/-- C8: for every image name `n`, on a document with an empty or absent `Entrypoint` and
`Image = n`, when image inspection is reached and reports "no such image" (the docker
client's `ErrNoSuchImage`), `setWeaveWaitEntrypoint` fails with this package's
`ErrNoSuchImage` carrying `Name = n`, not with the client's error, and the message of
that error is `No such image: ` followed by `n`. -/
theorem setWeaveWaitEntrypoint_no_such_image (p : Proxy) (doc : Obj) (n : String)
    (hE : ∃ ep, normEntrypoint doc = .ok ep ∧ ep.len = 0)
    (hI : lookupString doc "Image" = .ok n)
    (hP : p.InspectImage n = .error .ErrNoSuchImage)
    (hCall : Call.InspectImage n ∈ (setWeaveWaitEntrypoint p doc).calls) :
    (setWeaveWaitEntrypoint p doc).err = some (.noSuchImage ⟨n⟩) ∧
      (setWeaveWaitEntrypoint p doc).err ≠ some (.external .ErrNoSuchImage) ∧
      ErrNoSuchImage.Error ⟨n⟩ = "No such image: " ++ n := by
  obtain ⟨ep, hE, hlen⟩ := hE
  cases hC : lookupStringArray doc "Cmd" with
  | error e => simp [setWeaveWaitEntrypoint, hE, hC] at hCall
  | ok cmd =>
    have h : setWeaveWaitEntrypoint p doc
        = ⟨doc, some (.noSuchImage ⟨n⟩), [.InspectImage n]⟩ := by
      simp [setWeaveWaitEntrypoint, hE, hC, hlen, hI, hP]
    rw [h]
    exact ⟨rfl, by simp, rfl⟩

/-- C8 at the example of the specification: no `Entrypoint`, no `Cmd`, `Image = "missing"`,
an image that the sample proxy does not know. -/
theorem setWeaveWaitEntrypoint_no_such_image_witness :
    (setWeaveWaitEntrypoint sampleProxy [("Image", .str "missing")]).err
        = some (.noSuchImage ⟨"missing"⟩) ∧
      (setWeaveWaitEntrypoint sampleProxy [("Image", .str "missing")]).err
        ≠ some (.external .ErrNoSuchImage) ∧
      ErrNoSuchImage.Error ⟨"missing"⟩ = "No such image: " ++ "missing" :=
  setWeaveWaitEntrypoint_no_such_image sampleProxy [("Image", .str "missing")] "missing"
    ⟨none, rfl, rfl⟩ rfl rfl (List.Mem.head _)

/-! ## C9: a document without `Image` -/

/-- C9 as stated fails: on the empty document (no `Entrypoint`, no `Image`) the absent
`Image` reads as the empty string, the image of that name is inspected, and the error is
the one of that inspection (`ErrNoSuchImage` with the empty name for the sample proxy),
not a missing-field error. -/
theorem setWeaveWaitEntrypoint_missing_image_counterexample :
    Obj.get? [] "Image" = none ∧
      normEntrypoint [] = .ok none ∧
      (setWeaveWaitEntrypoint sampleProxy []).err = some (.noSuchImage ⟨""⟩) ∧
      (setWeaveWaitEntrypoint sampleProxy []).err ≠ some (.missingRequiredField "Image") ∧
      (setWeaveWaitEntrypoint sampleProxy []).calls = [.InspectImage ""] := by
  refine ⟨rfl, rfl, rfl, ?_, rfl⟩
  have h : (setWeaveWaitEntrypoint sampleProxy []).err = some (.noSuchImage ⟨""⟩) := rfl
  rw [h]
  simp

/-- C9, amended: for every document whose `Entrypoint` is empty or absent and which has no
`Image` key, `setWeaveWaitEntrypoint` never fails with a missing-field error; when `Cmd`
is well-typed it reads the image name as the empty string and makes exactly one call,
the inspection of the image of that name, and it fails with `ErrNoSuchImage` for the
empty name when that inspection reports "no such image". -/
theorem setWeaveWaitEntrypoint_missing_image (p : Proxy) (doc : Obj)
    (hE : ∃ ep, normEntrypoint doc = .ok ep ∧ ep.len = 0)
    (hI : doc.get? "Image" = none) :
    (∀ field, (setWeaveWaitEntrypoint p doc).err ≠ some (.missingRequiredField field)) ∧
      (∀ cmd, lookupStringArray doc "Cmd" = .ok cmd →
        (setWeaveWaitEntrypoint p doc).calls = [.InspectImage ""] ∧
        (p.InspectImage "" = .error .ErrNoSuchImage →
          (setWeaveWaitEntrypoint p doc).err = some (.noSuchImage ⟨""⟩))) := by
  obtain ⟨ep, hE, hlen⟩ := hE
  have hname : lookupString doc "Image" = .ok "" := by
    simp [lookupString, hI]
  constructor
  · intro field
    cases hC : lookupStringArray doc "Cmd" with
    | error e =>
      obtain ⟨w, hw⟩ := lookupStringArray_error doc "Cmd" e hC
      simp [setWeaveWaitEntrypoint, hE, hC, hw]
    | ok cmd =>
      cases hP : p.InspectImage "" with
      | error e => cases e <;> simp [setWeaveWaitEntrypoint, hE, hC, hlen, hname, hP]
      | ok img =>
        rw [setWeaveWaitEntrypoint_inspected p doc ep cmd "" img hE hlen hC hname hP]
        rcases useImageDefaults_err_cases p doc ep cmd img [.InspectImage ""] with h | h | h <;>
          rw [h] <;> simp
  · intro cmd hC
    constructor
    · cases hP : p.InspectImage "" with
      | error e => cases e <;> simp [setWeaveWaitEntrypoint, hE, hC, hlen, hname, hP]
      | ok img =>
        rw [setWeaveWaitEntrypoint_inspected p doc ep cmd "" img hE hlen hC hname hP,
          useImageDefaults_calls]
    · intro hP
      simp [setWeaveWaitEntrypoint, hE, hC, hlen, hname, hP]

/-- C9, amended, at the document that holds only `Cmd = ["sh"]`: the image with the empty
name is inspected, and the error is the one of that inspection. -/
theorem setWeaveWaitEntrypoint_missing_image_witness :
    Obj.get? [("Cmd", .arr [.str "sh"])] "Image" = none ∧
      (setWeaveWaitEntrypoint sampleProxy [("Cmd", .arr [.str "sh"])]).err
        ≠ some (.missingRequiredField "Image") ∧
      (setWeaveWaitEntrypoint sampleProxy [("Cmd", .arr [.str "sh"])]).calls
        = [.InspectImage ""] ∧
      (setWeaveWaitEntrypoint sampleProxy [("Cmd", .arr [.str "sh"])]).err
        = some (.noSuchImage ⟨""⟩) :=
  have h := setWeaveWaitEntrypoint_missing_image sampleProxy [("Cmd", .arr [.str "sh"])]
    ⟨none, rfl, rfl⟩ rfl
  ⟨rfl, h.1 "Image", (h.2 ["sh"] rfl).1, (h.2 ["sh"] rfl).2 rfl⟩

/-! ## C10: a single string is a one-element array -/

/-- C10: take two documents that agree on every key but `Entrypoint`, which is the single
string `s` in one and the one-element array `[s]` in the other. Then
`setWeaveWaitEntrypoint` has the same outcome on both: the same error or success, the
same collaborator calls, and the same normalised `Entrypoint` and `Cmd` in the
documents it leaves. -/
theorem setWeaveWaitEntrypoint_string_as_array (p : Proxy) (doc1 doc2 : Obj) (s : String)
    (h1 : doc1.get? "Entrypoint" = some (.str s))
    (h2 : doc2.get? "Entrypoint" = some (.arr [.str s]))
    (hsame : ∀ key, key ≠ "Entrypoint" → doc1.get? key = doc2.get? key) :
    (setWeaveWaitEntrypoint p doc1).err = (setWeaveWaitEntrypoint p doc2).err ∧
      (setWeaveWaitEntrypoint p doc1).calls = (setWeaveWaitEntrypoint p doc2).calls ∧
      normEntrypoint (setWeaveWaitEntrypoint p doc1).container
        = normEntrypoint (setWeaveWaitEntrypoint p doc2).container ∧
      lookupStringArray (setWeaveWaitEntrypoint p doc1).container "Cmd"
        = lookupStringArray (setWeaveWaitEntrypoint p doc2).container "Cmd" := by
  have hE1 : normEntrypoint doc1 = .ok (some [s]) := by simp [normEntrypoint, h1]
  have hE2 : normEntrypoint doc2 = .ok (some [s]) := by
    simp [normEntrypoint, h2, entrypointLoop, GoStrs.append, GoStrs.elems]
  have hCmd : lookupStringArray doc1 "Cmd" = lookupStringArray doc2 "Cmd" := by
    unfold lookupStringArray
    rw [hsame "Cmd" (by decide)]
  have hlen : ¬ (GoStrs.len (some [s]) = 0) := by simp [GoStrs.len, GoStrs.elems]
  cases hC : lookupStringArray doc2 "Cmd" with
  | error e =>
    have hC1 := hCmd.trans hC
    simp [setWeaveWaitEntrypoint, hE1, hE2, hC, hC1]
  | ok cmd =>
    have hC1 := hCmd.trans hC
    have e1 : setWeaveWaitEntrypoint p doc1 = wrapEntrypoint p doc1 (some [s]) cmd [] := by
      simp [setWeaveWaitEntrypoint, hE1, hC1, hlen]
    have e2 : setWeaveWaitEntrypoint p doc2 = wrapEntrypoint p doc2 (some [s]) cmd [] := by
      simp [setWeaveWaitEntrypoint, hE2, hC, hlen]
    have ok1 : (wrapEntrypoint p doc1 (some [s]) cmd []).err = none := by
      rw [wrapEntrypoint_err]; simp [hlen]
    have ok2 : (wrapEntrypoint p doc2 (some [s]) cmd []).err = none := by
      rw [wrapEntrypoint_err]; simp [hlen]
    obtain ⟨a1, b1⟩ := wrapEntrypoint_success p doc1 (some [s]) cmd [] hE1 hC1 ok1
    obtain ⟨a2, b2⟩ := wrapEntrypoint_success p doc2 (some [s]) cmd [] hE2 hC ok2
    rw [e1, e2]
    refine ⟨by rw [ok1, ok2], by rw [wrapEntrypoint_calls, wrapEntrypoint_calls], ?_, ?_⟩
    · rw [a1, a2]
    · rw [b1, b2]

/-- C10 at `s = "run.sh"`, next to `Cmd = ["a"]`. -/
theorem setWeaveWaitEntrypoint_string_as_array_witness :
    (setWeaveWaitEntrypoint sampleProxy
        [("Entrypoint", .str "run.sh"), ("Cmd", .arr [.str "a"])]).err
      = (setWeaveWaitEntrypoint sampleProxy
        [("Entrypoint", .arr [.str "run.sh"]), ("Cmd", .arr [.str "a"])]).err ∧
      (setWeaveWaitEntrypoint sampleProxy
        [("Entrypoint", .str "run.sh"), ("Cmd", .arr [.str "a"])]).calls
      = (setWeaveWaitEntrypoint sampleProxy
        [("Entrypoint", .arr [.str "run.sh"]), ("Cmd", .arr [.str "a"])]).calls ∧
      normEntrypoint (setWeaveWaitEntrypoint sampleProxy
        [("Entrypoint", .str "run.sh"), ("Cmd", .arr [.str "a"])]).container
      = normEntrypoint (setWeaveWaitEntrypoint sampleProxy
        [("Entrypoint", .arr [.str "run.sh"]), ("Cmd", .arr [.str "a"])]).container ∧
      lookupStringArray (setWeaveWaitEntrypoint sampleProxy
        [("Entrypoint", .str "run.sh"), ("Cmd", .arr [.str "a"])]).container "Cmd"
      = lookupStringArray (setWeaveWaitEntrypoint sampleProxy
        [("Entrypoint", .arr [.str "run.sh"]), ("Cmd", .arr [.str "a"])]).container "Cmd" :=
  setWeaveWaitEntrypoint_string_as_array sampleProxy
    [("Entrypoint", .str "run.sh"), ("Cmd", .arr [.str "a"])]
    [("Entrypoint", .arr [.str "run.sh"]), ("Cmd", .arr [.str "a"])] "run.sh" rfl rfl
    (by
      intro key hkey
      simp [Obj.get?, Ne.symm hkey])

/-! ## C11: the hostname of the container -/

/-- C11: with `R` the configured rewrite (`hostnameMatchRegexp.ReplaceAllString` with the
configured replacement) and `n` the `name` of the request, `containerHostname` returns
`R n` when no label key is configured; when one is configured and `Labels` is a mapping
(or absent), it returns `R l` when `Labels` holds the key with the string value `l`
(also when `l` is empty), `R n` when the key is absent from `Labels` or null, and it
fails with `WrongType` for the label key, expected `string`, when the key holds a value
that is neither null nor a string. -/
theorem containerHostname_cases (p : Proxy) (r : Request) (container : Obj) :
    (p.HostnameFromLabel = "" →
        containerHostname p r container
          = (p.hostnameMatchRegexp r.queryName p.HostnameReplacement, none)) ∧
      ∀ labels, p.HostnameFromLabel ≠ "" → lookupObject container "Labels" = .ok labels →
        (∀ l, labels.get? p.HostnameFromLabel = some (.str l) →
          containerHostname p r container
            = (p.hostnameMatchRegexp l p.HostnameReplacement, none)) ∧
        (labels.get? p.HostnameFromLabel = none ∨
            labels.get? p.HostnameFromLabel = some .null →
          containerHostname p r container
            = (p.hostnameMatchRegexp r.queryName p.HostnameReplacement, none)) ∧
        (∀ v, labels.get? p.HostnameFromLabel = some v → v ≠ .null → (∀ l, v ≠ .str l) →
          (containerHostname p r container).2
            = some (.wrongType ⟨p.HostnameFromLabel, "string", v⟩)) := by
  refine ⟨?_, ?_⟩
  · intro hkey
    simp [containerHostname, hkey]
  · intro labels hkey hLabels
    refine ⟨?_, ?_, ?_⟩
    · intro l hl
      simp [containerHostname, hostnameFromLabel, hkey, hLabels, hl]
    · intro h
      rcases h with h | h <;> simp [containerHostname, hostnameFromLabel, hkey, hLabels, h]
    · intro v hv hnull hstr
      cases v with
      | null => exact absurd rfl hnull
      | str l => exact absurd rfl (hstr l)
      | _ => simp [containerHostname, hostnameFromLabel, hkey, hLabels, hv]

/-- C11 at the request named `web1`: without a label key the name is rewritten; with the
label key `hostname`, the label `db` gives `h-db`, the empty label gives `h-`, no label
gives `h-web1`, and a label that is a number is refused. -/
theorem containerHostname_cases_witness :
    containerHostname sampleProxy ⟨"web1", ""⟩ [("Labels", .str "ignored")]
        = ("web1", none) ∧
      containerHostname labelProxy ⟨"web1", ""⟩ [("Labels", .obj [("hostname", .str "db")])]
        = ("h-db", none) ∧
      containerHostname labelProxy ⟨"web1", ""⟩ [("Labels", .obj [("hostname", .str "")])]
        = ("h-", none) ∧
      containerHostname labelProxy ⟨"web1", ""⟩ [("Labels", .obj [])] = ("h-web1", none) ∧
      (containerHostname labelProxy ⟨"web1", ""⟩
          [("Labels", .obj [("hostname", .num "7")])]).2
        = some (.wrongType ⟨"hostname", "string", .num "7"⟩) :=
  ⟨(containerHostname_cases sampleProxy ⟨"web1", ""⟩ [("Labels", .str "ignored")]).1 rfl,
    ((containerHostname_cases labelProxy ⟨"web1", ""⟩
      [("Labels", .obj [("hostname", .str "db")])]).2 [("hostname", .str "db")]
      (by decide) rfl).1 "db" rfl,
    ((containerHostname_cases labelProxy ⟨"web1", ""⟩
      [("Labels", .obj [("hostname", .str "")])]).2 [("hostname", .str "")]
      (by decide) rfl).1 "" rfl,
    ((containerHostname_cases labelProxy ⟨"web1", ""⟩ [("Labels", .obj [])]).2 []
      (by decide) rfl).2.1 (Or.inl rfl),
    ((containerHostname_cases labelProxy ⟨"web1", ""⟩
      [("Labels", .obj [("hostname", .num "7")])]).2 [("hostname", .num "7")]
      (by decide) rfl).2.2 (.num "7") rfl (by simp) (by simp)⟩

/-! ## The DNS configurator: lemmas -/

theorem lookupString_set_ne (c : Obj) (key key1 : String) (v : JVal) (hne : key1 ≠ key) :
    lookupString (c.set key v) key1 = lookupString c key1 := by
  unfold lookupString
  rw [Obj.get?_set_ne c key key1 v hne]

/-- When DNS injection is active and `HostConfig.Dns` is well-typed, `setWeaveDNS` appends
the bridge address and goes on with the hostname. -/
theorem setWeaveDNS_active (p : Proxy) (container hc : Obj) (name : String) (D : List String)
    (hOff : p.WithoutDNS = false)
    (hOn : (getDNSDomain p).1.2 = true ∨ p.WithDNS = true)
    (hHC : lookupObject container "HostConfig" = .ok hc)
    (hDns : lookupStringArray hc "Dns" = .ok D) :
    setWeaveDNS p container name
      = setHostname
          (container.set "HostConfig"
            (.obj (hc.set "Dns" (.strs (some (D ++ [p.dockerBridgeIP]))))))
          (hc.set "Dns" (.strs (some (D ++ [p.dockerBridgeIP])))) name
          (getDNSDomain p).1.1 (getDNSDomain p).2 := by
  have h : ((getDNSDomain p).1.2 || p.WithDNS) = true := by
    rcases hOn with h | h <;> simp [h]
  simp [setWeaveDNS, hOff, h, hHC, hDns, lookupObjectStore_set]

/-- The three ways in which the search domains are settled. -/
theorem setDnsSearch_cases (container hostConfig : Obj) (hostname dnsDomain : String)
    (calls : List Call) (ds : List String)
    (hDS : lookupStringArray hostConfig "DnsSearch" = .ok ds) :
    setDnsSearch container hostConfig hostname dnsDomain calls
      = if ds = [] then
          ⟨container.set "HostConfig" (.obj (hostConfig.set "DnsSearch"
            (.strs (some [if hostname = "" then dnsDomain else "."])))), none, calls⟩
        else ⟨container, none, calls⟩ := by
  unfold setDnsSearch
  rw [hDS]
  by_cases hds : ds = []
  · subst hds
    by_cases hh : hostname = "" <;> simp [hh]
  · have : ds.length ≠ 0 := fun h => hds (List.length_eq_zero.1 h)
    simp [hds, this]

/-- The search-domain step leaves every top-level key but `HostConfig` alone. -/
theorem setDnsSearch_frame (container hostConfig : Obj) (hostname dnsDomain : String)
    (calls : List Call) (key : String) (hkey : key ≠ "HostConfig") :
    (setDnsSearch container hostConfig hostname dnsDomain calls).container.get? key
      = container.get? key := by
  unfold setDnsSearch
  split
  · rfl
  · split
    · split <;> exact Obj.get?_set_ne _ _ _ _ hkey
    · rfl

/-- The search-domain step leaves every key of `HostConfig` but `DnsSearch` alone. -/
theorem setDnsSearch_hostConfig (container hostConfig : Obj) (hostname dnsDomain : String)
    (calls : List Call) (hHC : container.get? "HostConfig" = some (.obj hostConfig)) :
    ∃ hc1 : Obj, (setDnsSearch container hostConfig hostname dnsDomain calls).container.get?
          "HostConfig" = some (.obj hc1) ∧
      ∀ key, key ≠ "DnsSearch" → hc1.get? key = hostConfig.get? key := by
  unfold setDnsSearch
  split
  · exact ⟨hostConfig, hHC, fun _ _ => rfl⟩
  · split
    · split
      · exact ⟨_, Obj.get?_set_self _ _ _, fun key hkey => Obj.get?_set_ne _ _ _ _ hkey⟩
      · exact ⟨_, Obj.get?_set_self _ _ _, fun key hkey => Obj.get?_set_ne _ _ _ _ hkey⟩
    · exact ⟨hostConfig, hHC, fun _ _ => rfl⟩

/-- The hostname step, for a well-typed `Hostname`: the name is written when the client
gave none, a name is available and it fits. -/
theorem setHostname_cases (container hostConfig : Obj) (name dnsDomain h : String)
    (calls : List Call) (hHost : lookupString container "Hostname" = .ok h) :
    setHostname container hostConfig name dnsDomain calls
      = if h = "" ∧ name ≠ "" ∧
            name.utf8ByteSize + 1 + (trimSuffixDot dnsDomain).utf8ByteSize ≤ MaxDockerHostname
        then setDnsSearch ((container.set "Hostname" (.str name)).set "Domainname"
          (.str (trimSuffixDot dnsDomain))) hostConfig name dnsDomain calls
        else setDnsSearch container hostConfig h dnsDomain calls := by
  unfold setHostname
  rw [hHost]
  by_cases h1 : h = "" ∧ name ≠ ""
  · by_cases h2 : name.utf8ByteSize + 1 + (trimSuffixDot dnsDomain).utf8ByteSize
        ≤ MaxDockerHostname
    · have h3 : ¬ (name.utf8ByteSize + 1 + (trimSuffixDot dnsDomain).utf8ByteSize
          > MaxDockerHostname) := by omega
      simp [h1, h2, h3]
    · have h3 : name.utf8ByteSize + 1 + (trimSuffixDot dnsDomain).utf8ByteSize
          > MaxDockerHostname := by omega
      simp [h1, h2, h3]
  · have h4 : ¬ (h = "" ∧ name ≠ "" ∧
        name.utf8ByteSize + 1 + (trimSuffixDot dnsDomain).utf8ByteSize ≤ MaxDockerHostname) :=
      fun hh => h1 ⟨hh.1, hh.2.1⟩
    simp only [h1, h4, if_false]

/-- The whole of `setWeaveDNS` when DNS injection is active and `HostConfig`, `Dns` and
`Hostname` are well-typed. -/
theorem setWeaveDNS_step (p : Proxy) (container hc : Obj) (name h : String) (D : List String)
    (hOff : p.WithoutDNS = false)
    (hOn : (getDNSDomain p).1.2 = true ∨ p.WithDNS = true)
    (hHC : lookupObject container "HostConfig" = .ok hc)
    (hDns : lookupStringArray hc "Dns" = .ok D)
    (hHost : lookupString container "Hostname" = .ok h) :
    setWeaveDNS p container name
      = if h = "" ∧ name ≠ "" ∧
            name.utf8ByteSize + 1 + (trimSuffixDot (getDNSDomain p).1.1).utf8ByteSize
              ≤ MaxDockerHostname
        then setDnsSearch
          (((container.set "HostConfig"
              (.obj (hc.set "Dns" (.strs (some (D ++ [p.dockerBridgeIP])))))).set
            "Hostname" (.str name)).set "Domainname"
              (.str (trimSuffixDot (getDNSDomain p).1.1)))
          (hc.set "Dns" (.strs (some (D ++ [p.dockerBridgeIP])))) name
          (getDNSDomain p).1.1 (getDNSDomain p).2
        else setDnsSearch
          (container.set "HostConfig"
            (.obj (hc.set "Dns" (.strs (some (D ++ [p.dockerBridgeIP]))))))
          (hc.set "Dns" (.strs (some (D ++ [p.dockerBridgeIP])))) h
          (getDNSDomain p).1.1 (getDNSDomain p).2 := by
  rw [setWeaveDNS_active p container hc name D hOff hOn hHC hDns]
  apply setHostname_cases
  rw [lookupString_set_ne _ _ _ _ (by decide)]
  exact hHost

/-! ## C12: the hostname and the domain name -/

/-- C12: when DNS injection is active (and `HostConfig`, `Dns`, `Hostname` are
well-typed), `setWeaveDNS` writes `Hostname` (the resolved name) and `Domainname` (the
domain without its trailing full stop) when the client gave no non-empty `Hostname`, the
resolved name is not empty and `len(name) + 1 + len(trimmed domain) <= MaxDockerHostname`
(64, so a combined length of exactly 64 fits); in every other case `Hostname` and
`Domainname` are as the client sent them. In both cases no error arises from this step:
the call succeeds whenever `DnsSearch` is well-typed. -/
theorem setWeaveDNS_hostname (p : Proxy) (container hc : Obj) (name h : String)
    (D : List String)
    (hOff : p.WithoutDNS = false)
    (hOn : (getDNSDomain p).1.2 = true ∨ p.WithDNS = true)
    (hHC : lookupObject container "HostConfig" = .ok hc)
    (hDns : lookupStringArray hc "Dns" = .ok D)
    (hHost : lookupString container "Hostname" = .ok h) :
    (h = "" ∧ name ≠ "" ∧
        name.utf8ByteSize + 1 + (trimSuffixDot (getDNSDomain p).1.1).utf8ByteSize ≤ 64 →
      (setWeaveDNS p container name).container.get? "Hostname" = some (.str name) ∧
      (setWeaveDNS p container name).container.get? "Domainname"
        = some (.str (trimSuffixDot (getDNSDomain p).1.1))) ∧
    (¬ (h = "" ∧ name ≠ "" ∧
        name.utf8ByteSize + 1 + (trimSuffixDot (getDNSDomain p).1.1).utf8ByteSize ≤ 64) →
      (setWeaveDNS p container name).container.get? "Hostname" = container.get? "Hostname" ∧
      (setWeaveDNS p container name).container.get? "Domainname"
        = container.get? "Domainname") ∧
    (∀ ds, lookupStringArray hc "DnsSearch" = .ok ds →
      (setWeaveDNS p container name).err = none) ∧
    MaxDockerHostname = 64 := by
  have hstep := setWeaveDNS_step p container hc name h D hOff hOn hHC hDns hHost
  simp only [MaxDockerHostname] at hstep
  refine ⟨?_, ?_, ?_, rfl⟩
  · intro hc1
    rw [hstep, if_pos hc1]
    constructor
    · rw [setDnsSearch_frame _ _ _ _ _ _ (by decide), Obj.get?_set_ne _ _ _ _ (by decide),
        Obj.get?_set_self]
    · rw [setDnsSearch_frame _ _ _ _ _ _ (by decide), Obj.get?_set_self]
  · intro hc1
    rw [hstep, if_neg hc1]
    constructor
    · rw [setDnsSearch_frame _ _ _ _ _ _ (by decide), Obj.get?_set_ne _ _ _ _ (by decide)]
    · rw [setDnsSearch_frame _ _ _ _ _ _ (by decide), Obj.get?_set_ne _ _ _ _ (by decide)]
  · intro ds hDS
    have hDS1 : lookupStringArray (hc.set "Dns" (.strs (some (D ++ [p.dockerBridgeIP]))))
        "DnsSearch" = .ok ds := by
      rw [lookupStringArray_set_ne _ _ _ _ (by decide)]
      exact hDS
    rw [hstep]
    split
    · rw [setDnsSearch_cases _ _ _ _ _ ds hDS1]
      split <;> rfl
    · rw [setDnsSearch_cases _ _ _ _ _ ds hDS1]
      split <;> rfl

/-- C12 at the example of the specification: the name `web1` with the domain
`weave.local.` on the empty document gives `Hostname = "web1"` and
`Domainname = "weave.local"`, with no error; a client-supplied hostname is kept. -/
theorem setWeaveDNS_hostname_witness :
    (getDNSDomain dnsProxy).1.1 = "weave.local." ∧
      (setWeaveDNS dnsProxy [] "web1").container.get? "Hostname" = some (.str "web1") ∧
      (setWeaveDNS dnsProxy [] "web1").container.get? "Domainname"
        = some (.str "weave.local") ∧
      (setWeaveDNS dnsProxy [] "web1").err = none ∧
      (setWeaveDNS dnsProxy [("Hostname", .str "mine")] "web1").container.get? "Hostname"
        = some (.str "mine") :=
  have h := setWeaveDNS_hostname dnsProxy [] [] "web1" "" [] rfl (Or.inr rfl) rfl rfl rfl
  have h1 := h.1 (by decide)
  ⟨rfl, h1.1, h1.2, h.2.2.1 [] rfl,
    ((setWeaveDNS_hostname dnsProxy [("Hostname", .str "mine")] [] "web1" "mine" [] rfl
      (Or.inr rfl) rfl rfl rfl).2.1 (by decide)).1⟩

/-! ## C13: the search domains -/

/-- C13: when DNS injection is active (and the fields read are well-typed), `setWeaveDNS`
leaves a non-empty `HostConfig.DnsSearch` of the client as it is; an empty or absent one
is set to `["."]` when the container has a non-empty `Hostname` after the hostname
step, and to `[domain]`, the discovered DNS domain, when it has none. -/
theorem setWeaveDNS_dnsSearch (p : Proxy) (container hc : Obj) (name h : String)
    (D ds : List String)
    (hOff : p.WithoutDNS = false)
    (hOn : (getDNSDomain p).1.2 = true ∨ p.WithDNS = true)
    (hHC : lookupObject container "HostConfig" = .ok hc)
    (hDns : lookupStringArray hc "Dns" = .ok D)
    (hHost : lookupString container "Hostname" = .ok h)
    (hDS : lookupStringArray hc "DnsSearch" = .ok ds) :
    (setWeaveDNS p container name).err = none ∧
      ∃ (hc1 : Obj) (hn : String),
        (setWeaveDNS p container name).container.get? "HostConfig" = some (.obj hc1) ∧
        lookupString (setWeaveDNS p container name).container "Hostname" = .ok hn ∧
        (ds ≠ [] → hc1.get? "DnsSearch" = hc.get? "DnsSearch") ∧
        (ds = [] → hn ≠ "" → hc1.get? "DnsSearch" = some (.strs (some ["."]))) ∧
        (ds = [] → hn = "" →
          hc1.get? "DnsSearch" = some (.strs (some [(getDNSDomain p).1.1]))) := by
  have hstep := setWeaveDNS_step p container hc name h D hOff hOn hHC hDns hHost
  have hDS1 : lookupStringArray (hc.set "Dns" (.strs (some (D ++ [p.dockerBridgeIP]))))
      "DnsSearch" = .ok ds := by
    rw [lookupStringArray_set_ne _ _ _ _ (by decide)]
    exact hDS
  have hkeep : (hc.set "Dns" (.strs (some (D ++ [p.dockerBridgeIP])))).get? "DnsSearch"
      = hc.get? "DnsSearch" := Obj.get?_set_ne _ _ _ _ (by decide)
  rw [hstep]
  by_cases hcond : h = "" ∧ name ≠ "" ∧
      name.utf8ByteSize + 1 + (trimSuffixDot (getDNSDomain p).1.1).utf8ByteSize
        ≤ MaxDockerHostname
  · rw [if_pos hcond, setDnsSearch_cases _ _ _ _ _ ds hDS1]
    have hname : name ≠ "" := hcond.2.1
    by_cases hds : ds = []
    · rw [if_pos hds]
      refine ⟨rfl, _, name, Obj.get?_set_self _ _ _, ?_, fun hne => absurd hds hne, ?_, ?_⟩
      · simp only [lookupString]
        rw [Obj.get?_set_ne _ _ _ _ (by decide), Obj.get?_set_ne _ _ _ _ (by decide),
          Obj.get?_set_self]
      · intro _ _
        rw [Obj.get?_set_self, if_neg hname]
      · intro _ hn
        exact absurd hn hname
    · rw [if_neg hds]
      refine ⟨rfl, _, name, ?_, ?_, fun _ => hkeep, fun h0 => absurd h0 hds,
        fun h0 => absurd h0 hds⟩
      · show Obj.get? _ "HostConfig" = _
        rw [Obj.get?_set_ne _ _ _ _ (by decide), Obj.get?_set_ne _ _ _ _ (by decide),
          Obj.get?_set_self]
      · simp only [lookupString]
        rw [Obj.get?_set_ne _ _ _ _ (by decide), Obj.get?_set_self]
  · rw [if_neg hcond, setDnsSearch_cases _ _ _ _ _ ds hDS1]
    have hHost1 : ∀ v, lookupString ((container.set "HostConfig" v)) "Hostname" = .ok h := by
      intro v
      rw [lookupString_set_ne _ _ _ _ (by decide)]
      exact hHost
    by_cases hds : ds = []
    · rw [if_pos hds]
      refine ⟨rfl, _, h, Obj.get?_set_self _ _ _, ?_, fun hne => absurd hds hne, ?_, ?_⟩
      · show lookupString (Obj.set _ "HostConfig" _) "Hostname" = _
        rw [lookupString_set_ne _ _ _ _ (by decide)]
        exact hHost1 _
      · intro _ hn
        rw [Obj.get?_set_self, if_neg hn]
      · intro _ hn
        rw [Obj.get?_set_self, if_pos hn]
    · rw [if_neg hds]
      exact ⟨rfl, _, h, Obj.get?_set_self _ _ _, hHost1 _, fun _ => hkeep,
        fun h0 => absurd h0 hds, fun h0 => absurd h0 hds⟩

/-- C13 with the domain `weave.local.`: with the name `web1` the search domains of the
empty document become `["."]`; without a name they become `["weave.local."]`; the
client's `["example.org"]` is kept. -/
theorem setWeaveDNS_dnsSearch_witness :
    (setWeaveDNS dnsProxy [] "web1").container.get? "HostConfig"
        = some (.obj [("Dns", .strs (some ["172.17.42.1"])),
            ("DnsSearch", .strs (some ["."]))]) ∧
      (setWeaveDNS dnsProxy [] "").container.get? "HostConfig"
        = some (.obj [("Dns", .strs (some ["172.17.42.1"])),
            ("DnsSearch", .strs (some ["weave.local."]))]) ∧
      (setWeaveDNS dnsProxy
          [("HostConfig", .obj [("DnsSearch", .arr [.str "example.org"])])]
          "web1").container.get? "HostConfig"
        = some (.obj [("DnsSearch", .arr [.str "example.org"]),
            ("Dns", .strs (some ["172.17.42.1"]))]) ∧
      (setWeaveDNS dnsProxy [] "web1").err = none :=
  ⟨rfl, rfl, rfl,
    (setWeaveDNS_dnsSearch dnsProxy [] [] "web1" "" [] [] rfl (Or.inr rfl) rfl rfl rfl rfl).1⟩

/-- The hostname step and the search-domain step leave every key of `HostConfig` but
`DnsSearch` alone. -/
theorem setHostname_hostConfig (container hostConfig : Obj) (name dnsDomain : String)
    (calls : List Call) (hHC : container.get? "HostConfig" = some (.obj hostConfig)) :
    ∃ hc1 : Obj, (setHostname container hostConfig name dnsDomain calls).container.get?
          "HostConfig" = some (.obj hc1) ∧
      ∀ key, key ≠ "DnsSearch" → hc1.get? key = hostConfig.get? key := by
  cases hHost : lookupString container "Hostname" with
  | error e =>
    have h : setHostname container hostConfig name dnsDomain calls
        = ⟨container, some e, calls⟩ := by
      simp [setHostname, hHost]
    rw [h]
    exact ⟨hostConfig, hHC, fun _ _ => rfl⟩
  | ok h =>
    rw [setHostname_cases container hostConfig name dnsDomain h calls hHost]
    split
    · apply setDnsSearch_hostConfig
      rw [Obj.get?_set_ne _ _ _ _ (by decide), Obj.get?_set_ne _ _ _ _ (by decide)]
      exact hHC
    · exact setDnsSearch_hostConfig _ _ _ _ _ hHC

/-- The hostname step and the search-domain step leave every top-level key but
`Hostname`, `Domainname` and `HostConfig` alone. -/
theorem setHostname_frame (container hostConfig : Obj) (name dnsDomain : String)
    (calls : List Call) (key : String) (h1 : key ≠ "Hostname") (h2 : key ≠ "Domainname")
    (h3 : key ≠ "HostConfig") :
    (setHostname container hostConfig name dnsDomain calls).container.get? key
      = container.get? key := by
  cases hHost : lookupString container "Hostname" with
  | error e =>
    have h : setHostname container hostConfig name dnsDomain calls
        = ⟨container, some e, calls⟩ := by
      simp [setHostname, hHost]
    rw [h]
  | ok h =>
    rw [setHostname_cases container hostConfig name dnsDomain h calls hHost]
    split
    · rw [setDnsSearch_frame _ _ _ _ _ _ h3, Obj.get?_set_ne _ _ _ _ h2,
        Obj.get?_set_ne _ _ _ _ h1]
    · rw [setDnsSearch_frame _ _ _ _ _ _ h3]

/-! ## C14: the DNS server -/

/-- C14: when DNS injection is active, for every well-typed `HostConfig.Dns` of the client
(the sequence `D`, possibly empty, possibly holding the bridge address already)
`setWeaveDNS` sets `HostConfig.Dns` to `D` followed by the bridge address: the client's
entries are kept in their order, there is one entry more, and nothing is removed as a
duplicate. This holds whatever happens later in the call. -/
theorem setWeaveDNS_dns (p : Proxy) (container hc : Obj) (name : String) (D : List String)
    (hOff : p.WithoutDNS = false)
    (hOn : (getDNSDomain p).1.2 = true ∨ p.WithDNS = true)
    (hHC : lookupObject container "HostConfig" = .ok hc)
    (hDns : lookupStringArray hc "Dns" = .ok D) :
    ∃ hc1 : Obj,
      (setWeaveDNS p container name).container.get? "HostConfig" = some (.obj hc1) ∧
      hc1.get? "Dns" = some (.strs (some (D ++ [p.dockerBridgeIP]))) ∧
      lookupStringArray hc1 "Dns" = .ok (D ++ [p.dockerBridgeIP]) ∧
      (D ++ [p.dockerBridgeIP]).length = D.length + 1 ∧
      (D ++ [p.dockerBridgeIP]).take D.length = D := by
  rw [setWeaveDNS_active p container hc name D hOff hOn hHC hDns]
  obtain ⟨hc1, h1, h2⟩ := setHostname_hostConfig
    (container.set "HostConfig" (.obj (hc.set "Dns" (.strs (some (D ++ [p.dockerBridgeIP]))))))
    (hc.set "Dns" (.strs (some (D ++ [p.dockerBridgeIP])))) name (getDNSDomain p).1.1
    (getDNSDomain p).2 (Obj.get?_set_self _ _ _)
  have h3 : hc1.get? "Dns" = some (.strs (some (D ++ [p.dockerBridgeIP]))) := by
    rw [h2 "Dns" (by decide), Obj.get?_set_self]
  refine ⟨hc1, h1, h3, ?_, by simp, by simp⟩
  simp [lookupStringArray, h3, GoStrs.elems]

/-- C14 at a client that names the bridge address itself: it is appended once more. -/
theorem setWeaveDNS_dns_witness :
    ∃ hc1 : Obj,
      (setWeaveDNS dnsProxy
          [("HostConfig", .obj [("Dns", .arr [.str "8.8.8.8", .str "172.17.42.1"])])]
          "web1").container.get? "HostConfig" = some (.obj hc1) ∧
      hc1.get? "Dns" = some (.strs (some (["8.8.8.8", "172.17.42.1"] ++ ["172.17.42.1"]))) ∧
      lookupStringArray hc1 "Dns" = .ok (["8.8.8.8", "172.17.42.1"] ++ ["172.17.42.1"]) ∧
      (["8.8.8.8", "172.17.42.1"] ++ ["172.17.42.1"]).length = 2 + 1 ∧
      (["8.8.8.8", "172.17.42.1"] ++ ["172.17.42.1"]).take 2 = ["8.8.8.8", "172.17.42.1"] :=
  setWeaveDNS_dns dnsProxy
    [("HostConfig", .obj [("Dns", .arr [.str "8.8.8.8", .str "172.17.42.1"])])]
    [("Dns", .arr [.str "8.8.8.8", .str "172.17.42.1"])] "web1"
    ["8.8.8.8", "172.17.42.1"] rfl (Or.inr rfl) rfl rfl

/-! ## C15: DNS injection switched off -/

/-- C15: `setWeaveDNS` returns no error and leaves the whole document as it is, whatever
it holds, when DNS injection is disabled (`WithoutDNS`, also when `WithDNS` is set as
well), and when the agent is not running and DNS injection is not forced on
(`WithDNS` false). -/
theorem setWeaveDNS_noop (p : Proxy) (container : Obj) (name : String)
    (hNoop : p.WithoutDNS = true ∨ ((getDNSDomain p).1.2 = false ∧ p.WithDNS = false)) :
    (setWeaveDNS p container name).err = none ∧
      (setWeaveDNS p container name).container = container := by
  by_cases hOff : p.WithoutDNS = true
  · simp [setWeaveDNS, hOff]
  · rcases hNoop with h | ⟨h1, h2⟩
    · exact absurd h hOff
    · simp [setWeaveDNS, hOff, h1, h2]

/-- C15 at the sample proxy (agent not reachable, DNS not forced), on a document whose
`HostConfig` is ill-typed, and at a proxy with both `WithoutDNS` and `WithDNS` set. -/
theorem setWeaveDNS_noop_witness :
    (setWeaveDNS sampleProxy [("HostConfig", .str "odd")] "web1").err = none ∧
      (setWeaveDNS sampleProxy [("HostConfig", .str "odd")] "web1").container
        = [("HostConfig", .str "odd")] ∧
      (setWeaveDNS { dnsProxy with WithoutDNS := true } [("Dns", .num "1")] "web1").container
        = [("Dns", .num "1")] :=
  have h := setWeaveDNS_noop sampleProxy [("HostConfig", .str "odd")] "web1"
    (Or.inr ⟨rfl, rfl⟩)
  ⟨h.1, h.2,
    (setWeaveDNS_noop { dnsProxy with WithoutDNS := true } [("Dns", .num "1")] "web1"
      (Or.inl rfl)).2⟩

/-! ## C19: the trailing full stop of the domain -/

theorem trimSuffixDot_append_dot (s : String) : trimSuffixDot (s ++ ".") = s := by
  have h : (s ++ ".").data = s.data ++ ['.'] := by simp [String.data_append]
  unfold trimSuffixDot
  rw [h]
  simp

theorem trimSuffixDot_of_not_endsWithDot (d : String) (h : ¬ endsWithDot d) :
    trimSuffixDot d = d := by
  unfold endsWithDot at h
  unfold trimSuffixDot
  rw [if_neg h]

theorem endsWithDot_trimSuffixDot (d : String) (h : endsWithDot (trimSuffixDot d)) :
    ∃ s, d = s ++ ".." := by
  by_cases hd : endsWithDot d
  · have e1 : trimSuffixDot d = String.mk d.data.dropLast := by
      unfold endsWithDot at hd
      unfold trimSuffixDot
      rw [if_pos hd]
    rw [e1] at h
    unfold endsWithDot at h hd
    obtain ⟨l1, h1⟩ := List.getLast?_eq_some_iff.1 hd
    rw [h1] at h
    simp only [List.dropLast_concat] at h
    obtain ⟨l2, h2⟩ := List.getLast?_eq_some_iff.1 h
    refine ⟨String.mk l2, ?_⟩
    apply String.ext
    rw [h1, h2]
    simp [String.data_append]
  · rw [trimSuffixDot_of_not_endsWithDot d hd] at h
    exact absurd h hd

/-- C19 as stated fails: with the domain `weave.local..` (two trailing full stops) the
`Domainname` written for the name `web1` is `weave.local.`, which still ends with a
full stop: `strings.TrimSuffix` removes one. -/
theorem setWeaveDNS_double_dot_counterexample :
    (getDNSDomain dotsProxy).1.1 = "weave.local.." ∧
      (setWeaveDNS dotsProxy [] "web1").container.get? "Domainname"
        = some (.str "weave.local.") ∧
      endsWithDot "weave.local." :=
  ⟨rfl, rfl, rfl⟩

/-- C19, amended: when DNS injection is active, the client gave no `Hostname` and the
resolved name is not empty, the `Domainname` is written exactly when
`len(name) + 1 + len(t) <= MaxDockerHostname`, where `t` is the discovered domain `d`
with one trailing full stop removed (`d` itself when it has none), and the value written
is that same `t`; `t` does not end with a full stop unless `d` ends with two. -/
theorem setWeaveDNS_domainname (p : Proxy) (container hc : Obj) (name : String)
    (D : List String)
    (hOff : p.WithoutDNS = false)
    (hOn : (getDNSDomain p).1.2 = true ∨ p.WithDNS = true)
    (hHC : lookupObject container "HostConfig" = .ok hc)
    (hDns : lookupStringArray hc "Dns" = .ok D)
    (hHost : lookupString container "Hostname" = .ok "")
    (hName : name ≠ "") :
    (name.utf8ByteSize + 1 + (trimSuffixDot (getDNSDomain p).1.1).utf8ByteSize
        ≤ MaxDockerHostname →
      (setWeaveDNS p container name).container.get? "Domainname"
        = some (.str (trimSuffixDot (getDNSDomain p).1.1))) ∧
    (¬ (name.utf8ByteSize + 1 + (trimSuffixDot (getDNSDomain p).1.1).utf8ByteSize
        ≤ MaxDockerHostname) →
      (setWeaveDNS p container name).container.get? "Domainname"
        = container.get? "Domainname") ∧
    (∀ s, (getDNSDomain p).1.1 = s ++ "." → trimSuffixDot (getDNSDomain p).1.1 = s) ∧
    (¬ endsWithDot (getDNSDomain p).1.1 →
      trimSuffixDot (getDNSDomain p).1.1 = (getDNSDomain p).1.1) ∧
    ((∀ s, (getDNSDomain p).1.1 ≠ s ++ "..") →
      ¬ endsWithDot (trimSuffixDot (getDNSDomain p).1.1)) := by
  have hstep := setWeaveDNS_step p container hc name "" D hOff hOn hHC hDns hHost
  refine ⟨?_, ?_, ?_, trimSuffixDot_of_not_endsWithDot _, ?_⟩
  · intro hfit
    rw [hstep, if_pos ⟨rfl, hName, hfit⟩, setDnsSearch_frame _ _ _ _ _ _ (by decide),
      Obj.get?_set_self]
  · intro hfit
    rw [hstep, if_neg (fun hh => hfit hh.2.2), setDnsSearch_frame _ _ _ _ _ _ (by decide),
      Obj.get?_set_ne _ _ _ _ (by decide)]
  · intro s hs
    rw [hs, trimSuffixDot_append_dot]
  · intro hno hends
    obtain ⟨s, hs⟩ := endsWithDot_trimSuffixDot _ hends
    exact hno s hs

/-- C19, amended, at the example of the specification: the domain `weave.local.` is
written as `weave.local`, which does not end with a full stop. -/
theorem setWeaveDNS_domainname_witness :
    (getDNSDomain dnsProxy).1.1 = "weave.local" ++ "." ∧
      (setWeaveDNS dnsProxy [] "web1").container.get? "Domainname"
        = some (.str "weave.local") ∧
      trimSuffixDot (getDNSDomain dnsProxy).1.1 = "weave.local" ∧
      ¬ endsWithDot "weave.local" :=
  have h := setWeaveDNS_domainname dnsProxy [] [] "web1" [] rfl (Or.inr rfl) rfl rfl rfl
    (by decide)
  ⟨rfl, h.1 (by decide), h.2.2.1 "weave.local" rfl, by unfold endsWithDot; decide⟩

/-! ## C18: an ill-typed entrypoint -/

theorem entrypointLoop_eq_none (l : List JVal) (acc : GoStrs) :
    entrypointLoop l acc = none ↔ stringsOf l = none := by
  induction l generalizing acc with
  | nil => simp [entrypointLoop, stringsOf]
  | cons x rest ih =>
    cases x with
    | str s => simp [entrypointLoop, stringsOf, ih]
    | _ => simp [entrypointLoop, stringsOf]

theorem lookupStringArray_error_field (d : Obj) (key : String) (e : Err)
    (h : lookupStringArray d key = .error e) : ∃ w, e = .wrongType w ∧ w.Field = key := by
  unfold lookupStringArray at h
  split at h <;> first
    | (cases h; done)
    | (cases h; exact ⟨_, rfl, rfl⟩)
    | (split at h <;> first | (cases h; done) | (cases h; exact ⟨_, rfl, rfl⟩))

theorem lookupString_error_field (d : Obj) (key : String) (e : Err)
    (h : lookupString d key = .error e) : ∃ w, e = .wrongType w ∧ w.Field = key := by
  unfold lookupString at h
  split at h <;> first
    | (cases h; done)
    | (cases h; exact ⟨_, rfl, rfl⟩)

/-- The entrypoint is refused exactly when the key holds a value that is not null, not a
string, not a string slice and not an array of strings; the error names it. -/
theorem normEntrypoint_error_iff (d : Obj) (e : Err) :
    normEntrypoint d = .error e ↔
      ∃ v, d.get? "Entrypoint" = some v ∧
        e = .wrongType ⟨"Entrypoint", "string or array of strings", v⟩ ∧
        v ≠ .null ∧ (∀ s, v ≠ .str s) ∧ (∀ l, v ≠ .strs l) ∧
        (∀ l, v = .arr l → stringsOf l = none) := by
  unfold normEntrypoint
  cases hv : d.get? "Entrypoint" with
  | none => simp
  | some v =>
    cases v with
    | null => simp
    | str s => simp
    | strs l => simp
    | arr l =>
      cases hl : entrypointLoop l none with
      | none =>
        have hs := (entrypointLoop_eq_none l none).1 hl
        simp only [hl, Except.error.injEq, Option.some.injEq, exists_eq_left']
        constructor
        · intro h
          exact ⟨h.symm, by simp, by simp, by simp, fun l1 h1 => by cases h1; exact hs⟩
        · intro h
          exact h.1.symm
      | some ep =>
        have hs : stringsOf l ≠ none := fun h => by
          rw [(entrypointLoop_eq_none l none).2 h] at hl
          cases hl
        simp only [hl, Option.some.injEq, exists_eq_left', false_iff, not_and, reduceCtorEq]
        intro _ _ _ _ h
        exact hs (h l rfl)
    | bool b =>
      simp only [Except.error.injEq, Option.some.injEq, exists_eq_left']
      constructor
      · intro h
        exact ⟨h.symm, by simp, by simp, by simp, by simp⟩
      · intro h
        exact h.1.symm
    | num n =>
      simp only [Except.error.injEq, Option.some.injEq, exists_eq_left']
      constructor
      · intro h
        exact ⟨h.symm, by simp, by simp, by simp, by simp⟩
      · intro h
        exact h.1.symm
    | obj m =>
      simp only [Except.error.injEq, Option.some.injEq, exists_eq_left']
      constructor
      · intro h
        exact ⟨h.symm, by simp, by simp, by simp, by simp⟩
      · intro h
        exact h.1.symm

theorem noCommand_ne_wrongType (c : Prop) [Decidable c] (w : UnmarshalWrongTypeError) :
    (if c then some Err.ErrNoCommandSpecified else none) ≠ some (Err.wrongType w) := by
  by_cases h : c <;> simp [h]

/-- C18: `setWeaveWaitEntrypoint` fails with a `WrongType` error that names the field
`Entrypoint` if and only if the `Entrypoint` key is present, not null, and holds neither
a string nor an array all of whose elements are strings (as `[]interface{}` or as
`[]string`); the error then expects `string or array of strings` and carries the value
found. An absent or null `Entrypoint` is accepted and read as the empty sequence. -/
theorem setWeaveWaitEntrypoint_wrong_type_iff (p : Proxy) (doc : Obj) :
    ((∃ w, (setWeaveWaitEntrypoint p doc).err = some (.wrongType w) ∧
          w.Field = "Entrypoint") ↔
        ∃ v, doc.get? "Entrypoint" = some v ∧ v ≠ .null ∧ (∀ s, v ≠ .str s) ∧
          (∀ l, v ≠ .strs l) ∧ (∀ l, v = .arr l → stringsOf l = none)) ∧
      (∀ w, (setWeaveWaitEntrypoint p doc).err = some (.wrongType w) →
        w.Field = "Entrypoint" →
        w.Expected = "string or array of strings" ∧ doc.get? "Entrypoint" = some w.Got) ∧
      (doc.get? "Entrypoint" = none ∨ doc.get? "Entrypoint" = some .null →
        normEntrypoint doc = .ok none) := by
  have hmain : ∀ w, (setWeaveWaitEntrypoint p doc).err = some (.wrongType w) →
      w.Field = "Entrypoint" → normEntrypoint doc = .error (.wrongType w) := by
    intro w herr hfield
    cases hE : normEntrypoint doc with
    | error e =>
      have : (setWeaveWaitEntrypoint p doc).err = some e := by
        simp [setWeaveWaitEntrypoint, hE]
      rw [this] at herr
      cases herr
      rfl
    | ok ep =>
      exfalso
      cases hC : lookupStringArray doc "Cmd" with
      | error e =>
        obtain ⟨w1, hw1, hf1⟩ := lookupStringArray_error_field doc "Cmd" e hC
        have : (setWeaveWaitEntrypoint p doc).err = some e := by
          simp [setWeaveWaitEntrypoint, hE, hC]
        rw [this, hw1] at herr
        cases herr
        rw [hfield] at hf1
        exact absurd hf1 (by decide)
      | ok cmd =>
        by_cases hlen : ep.len = 0
        · cases hI : lookupString doc "Image" with
          | error e =>
            obtain ⟨w1, hw1, hf1⟩ := lookupString_error_field doc "Image" e hI
            have : (setWeaveWaitEntrypoint p doc).err = some e := by
              simp [setWeaveWaitEntrypoint, hE, hC, hlen, hI]
            rw [this, hw1] at herr
            cases herr
            rw [hfield] at hf1
            exact absurd hf1 (by decide)
          | ok name =>
            cases hP : p.InspectImage name with
            | error e => cases e <;> simp [setWeaveWaitEntrypoint, hE, hC, hlen, hI, hP] at herr
            | ok img =>
              rw [setWeaveWaitEntrypoint_inspected p doc ep cmd name img hE hlen hC hI hP]
                at herr
              rcases useImageDefaults_err_cases p doc ep cmd img [.InspectImage name]
                with h | h | h <;> rw [h] at herr <;> cases herr
        · have h : setWeaveWaitEntrypoint p doc = wrapEntrypoint p doc ep cmd [] := by
            simp [setWeaveWaitEntrypoint, hE, hC, hlen]
          rw [h, wrapEntrypoint_err] at herr
          exact noCommand_ne_wrongType _ w herr
  refine ⟨⟨?_, ?_⟩, ?_, ?_⟩
  · rintro ⟨w, herr, hfield⟩
    obtain ⟨v, hv, _, h1, h2, h3, h4⟩ :=
      (normEntrypoint_error_iff doc _).1 (hmain w herr hfield)
    exact ⟨v, hv, h1, h2, h3, h4⟩
  · rintro ⟨v, hv, h1, h2, h3, h4⟩
    have hE := (normEntrypoint_error_iff doc
      (.wrongType ⟨"Entrypoint", "string or array of strings", v⟩)).2
      ⟨v, hv, rfl, h1, h2, h3, h4⟩
    exact ⟨⟨"Entrypoint", "string or array of strings", v⟩,
      by simp [setWeaveWaitEntrypoint, hE], rfl⟩
  · intro w herr hfield
    obtain ⟨v, hv, hw, _⟩ := (normEntrypoint_error_iff doc _).1 (hmain w herr hfield)
    cases hw
    exact ⟨rfl, hv⟩
  · intro h
    rcases h with h | h <;> simp [normEntrypoint, h]

/-- C18 at an `Entrypoint` that is a number, and at one that is an array with a number
in it: both are refused with the error that names `Entrypoint`. -/
theorem setWeaveWaitEntrypoint_wrong_type_iff_witness :
    (∃ w, (setWeaveWaitEntrypoint sampleProxy [("Entrypoint", .num "7")]).err
        = some (.wrongType w) ∧ w.Field = "Entrypoint") ∧
      (∃ w, (setWeaveWaitEntrypoint sampleProxy
          [("Entrypoint", .arr [.str "sh", .num "7"])]).err
        = some (.wrongType w) ∧ w.Field = "Entrypoint") ∧
      normEntrypoint [("Entrypoint", .null)] = .ok none :=
  ⟨(setWeaveWaitEntrypoint_wrong_type_iff sampleProxy [("Entrypoint", .num "7")]).1.2
      ⟨.num "7", rfl, by simp, by simp, by simp, by simp⟩,
    (setWeaveWaitEntrypoint_wrong_type_iff sampleProxy
      [("Entrypoint", .arr [.str "sh", .num "7"])]).1.2
      ⟨.arr [.str "sh", .num "7"], rfl, by simp, by simp, by simp,
        fun l h => by cases h; rfl⟩,
    (setWeaveWaitEntrypoint_wrong_type_iff sampleProxy [("Entrypoint", .null)]).2.2
      (Or.inr rfl)⟩

/-! ## C20: an entrypoint given by the client -/

/-- C20: when the `Entrypoint` of the document normalises to a non-empty sequence and
`Cmd` is well-typed, `setWeaveWaitEntrypoint` succeeds and calls nobody; it does not
read `Image` (whatever `Image` holds, the call succeeds without a call); every key but
`Entrypoint` is as it was, `Cmd` included, also when `Cmd` is empty or absent; and the
`Entrypoint` is the original one when that starts with the wrapper (the document is then
unchanged), and otherwise the wrapper followed by the original entries in their order. -/
theorem setWeaveWaitEntrypoint_client_entrypoint (p : Proxy) (doc : Obj) (ep : GoStrs)
    (cmd : List String)
    (hE : normEntrypoint doc = .ok ep) (hne : ep.elems ≠ [])
    (hC : lookupStringArray doc "Cmd" = .ok cmd) :
    (setWeaveWaitEntrypoint p doc).err = none ∧
      (setWeaveWaitEntrypoint p doc).calls = [] ∧
      (∀ v, (setWeaveWaitEntrypoint p (doc.set "Image" v)).err = none ∧
        (setWeaveWaitEntrypoint p (doc.set "Image" v)).calls = []) ∧
      (∀ key, key ≠ "Entrypoint" →
        (setWeaveWaitEntrypoint p doc).container.get? key = doc.get? key) ∧
      lookupStringArray (setWeaveWaitEntrypoint p doc).container "Cmd" = .ok cmd ∧
      (ep.elems.head? = (weaveWaitEntrypoint p).head? →
        (setWeaveWaitEntrypoint p doc).container = doc) ∧
      (ep.elems.head? ≠ (weaveWaitEntrypoint p).head? →
        (setWeaveWaitEntrypoint p doc).container.get? "Entrypoint"
          = some (.strs (some (weaveWaitEntrypoint p ++ ep.elems)))) := by
  have hlen : ¬ (ep.len = 0) := fun h => hne (List.length_eq_zero.1 h)
  have key : ∀ d : Obj, normEntrypoint d = .ok ep → lookupStringArray d "Cmd" = .ok cmd →
      setWeaveWaitEntrypoint p d
        = if ep.elems.head? ≠ (weaveWaitEntrypoint p).head? then
            ⟨d.set "Entrypoint" (.strs (some (weaveWaitEntrypoint p ++ ep.elems))), none, []⟩
          else ⟨d, none, []⟩ := by
    intro d hE1 hC1
    simp [setWeaveWaitEntrypoint, hE1, hC1, hlen, wrapEntrypoint]
  have h := key doc hE hC
  refine ⟨?_, ?_, ?_, ?_, ?_, ?_, ?_⟩
  · rw [h]; split <;> rfl
  · rw [h]; split <;> rfl
  · intro v
    have h1 := key (doc.set "Image" v)
      (by rw [normEntrypoint_set_ne _ _ _ (by decide)]; exact hE)
      (by rw [lookupStringArray_set_ne _ _ _ _ (by decide)]; exact hC)
    rw [h1]
    split <;> exact ⟨rfl, rfl⟩
  · intro k hk
    rw [h]
    split
    · exact Obj.get?_set_ne _ _ _ _ hk
    · rfl
  · rw [h]
    split
    · show lookupStringArray (Obj.set _ _ _) "Cmd" = _
      rw [lookupStringArray_set_ne _ _ _ _ (by decide)]
      exact hC
    · exact hC
  · intro hw
    rw [h, if_neg (not_not.2 hw)]
  · intro hw
    rw [h, if_pos hw]
    exact Obj.get?_set_self _ _ _

/-- C20 at `Entrypoint = ["run.sh", "-v"]` with no `Cmd`: the wrapper is put in front,
`Cmd` stays absent, `Image` stays as it is, and nobody is called. -/
theorem setWeaveWaitEntrypoint_client_entrypoint_witness :
    (setWeaveWaitEntrypoint sampleProxy
        [("Image", .str "foo"), ("Entrypoint", .arr [.str "run.sh", .str "-v"])]).err = none ∧
      (setWeaveWaitEntrypoint sampleProxy
        [("Image", .str "foo"), ("Entrypoint", .arr [.str "run.sh", .str "-v"])]).calls = [] ∧
      (setWeaveWaitEntrypoint sampleProxy
        [("Image", .str "foo"), ("Entrypoint", .arr [.str "run.sh", .str "-v"])]).container
        = [("Image", .str "foo"), ("Entrypoint", .strs (some ["/w/w", "run.sh", "-v"]))] ∧
      (setWeaveWaitEntrypoint sampleProxy
        [("Image", .str "foo"),
          ("Entrypoint", .arr [.str "run.sh", .str "-v"])]).container.get? "Cmd" = none :=
  have h := setWeaveWaitEntrypoint_client_entrypoint sampleProxy
    [("Image", .str "foo"), ("Entrypoint", .arr [.str "run.sh", .str "-v"])]
    (some ["run.sh", "-v"]) [] rfl (by simp [GoStrs.elems]) rfl
  ⟨h.1, h.2.1, rfl, h.2.2.2.1 "Cmd" (by decide)⟩

/-! ## The interceptor: what the mutations leave alone -/

theorem wrapEntrypoint_frame (p : Proxy) (c : Obj) (ep : GoStrs) (cmd : List String)
    (calls : List Call) (key : String) (hkey : key ≠ "Entrypoint") :
    (wrapEntrypoint p c ep cmd calls).container.get? key = c.get? key := by
  unfold wrapEntrypoint
  split
  · rfl
  · split
    · exact Obj.get?_set_ne _ _ _ _ hkey
    · rfl

theorem adoptImageDefaults_frame (p : Proxy) (c : Obj) (ep : GoStrs) (cmd : List String)
    (config : ImageConfig) (calls : List Call) (key : String) (h1 : key ≠ "Entrypoint")
    (h2 : key ≠ "Cmd") :
    (adoptImageDefaults p c ep cmd config calls).container.get? key = c.get? key := by
  unfold adoptImageDefaults
  rw [wrapEntrypoint_frame _ _ _ _ _ _ h1]
  have hcmd : (if cmd.length = 0 then c.set "Cmd" (.strs config.Cmd) else c).get? key
      = c.get? key := by
    split
    · exact Obj.get?_set_ne _ _ _ _ h2
    · rfl
  by_cases he : ep = none
  · simp only [he, if_true]
    rw [Obj.get?_set_ne _ _ _ _ h1]
    exact hcmd
  · simp only [he, if_false]
    exact hcmd

theorem useImageDefaults_frame (p : Proxy) (c : Obj) (ep : GoStrs) (cmd : List String)
    (image : Image) (calls : List Call) (key : String) (h1 : key ≠ "Entrypoint")
    (h2 : key ≠ "Cmd") :
    (useImageDefaults p c ep cmd image calls).container.get? key = c.get? key := by
  unfold useImageDefaults
  split
  · exact adoptImageDefaults_frame _ _ _ _ _ _ _ h1 h2
  · split
    · rfl
    · exact wrapEntrypoint_frame _ _ _ _ _ _ h1

/-- The entrypoint wrapper leaves every key but `Entrypoint` and `Cmd` alone, on every
path. -/
theorem setWeaveWaitEntrypoint_frame (p : Proxy) (c : Obj) (key : String)
    (h1 : key ≠ "Entrypoint") (h2 : key ≠ "Cmd") :
    (setWeaveWaitEntrypoint p c).container.get? key = c.get? key := by
  unfold setWeaveWaitEntrypoint
  split
  · rfl
  · split
    · rfl
    · split
      · split
        · rfl
        · split
          · rfl
          · rfl
          · exact useImageDefaults_frame _ _ _ _ _ _ _ h1 h2
      · exact wrapEntrypoint_frame _ _ _ _ _ _ h1
/-- The DNS configurator leaves every top-level key but `Hostname`, `Domainname` and
`HostConfig` alone, on every path. -/
theorem setWeaveDNS_frame (p : Proxy) (c : Obj) (name key : String)
    (h1 : key ≠ "Hostname") (h2 : key ≠ "Domainname") (h3 : key ≠ "HostConfig") :
    (setWeaveDNS p c name).container.get? key = c.get? key := by
  unfold setWeaveDNS
  simp only [lookupObjectStore_set]
  split
  · rfl
  · split
    · rfl
    · split
      · rfl
      · split
        · exact lookupObjectStore_get?_ne _ _ _ h3
        · rw [setHostname_frame _ _ _ _ _ _ h1 h2 h3]
          exact Obj.get?_set_ne _ _ _ _ h3

/-- The DNS configurator leaves every key of `HostConfig` but `Dns` and `DnsSearch`
alone, on every path. -/
theorem setWeaveDNS_hostConfig (p : Proxy) (c hc : Obj) (name : String)
    (hHC : c.get? "HostConfig" = some (.obj hc)) :
    ∃ hc1 : Obj, (setWeaveDNS p c name).container.get? "HostConfig" = some (.obj hc1) ∧
      ∀ key, key ≠ "Dns" → key ≠ "DnsSearch" → hc1.get? key = hc.get? key := by
  have hlook : lookupObject c "HostConfig" = .ok hc := by
    simp [lookupObject, hHC]
  unfold setWeaveDNS
  simp only [lookupObjectStore_set, lookupObjectStore_of_obj c hc "HostConfig" hHC]
  split
  · exact ⟨hc, hHC, fun _ _ _ => rfl⟩
  · split
    · exact ⟨hc, hHC, fun _ _ _ => rfl⟩
    · rw [hlook]
      simp only []
      split
      · exact ⟨hc, hHC, fun _ _ _ => rfl⟩
      · obtain ⟨hc1, e1, e2⟩ := setHostname_hostConfig
          (c.set "HostConfig" (.obj (hc.set "Dns" (.strs (some (_ ++ [p.dockerBridgeIP]))))))
          (hc.set "Dns" (.strs (some (_ ++ [p.dockerBridgeIP])))) name (getDNSDomain p).1.1
          (getDNSDomain p).2 (Obj.get?_set_self _ _ _)
        exact ⟨hc1, e1, fun key k1 k2 => by
          rw [e2 key k2, Obj.get?_set_ne _ _ _ _ k1]⟩

theorem lookupObjectStore_get?_eq (m : Obj) (key : String) :
    (lookupObjectStore m key).get? key = storedObject (m.get? key) := by
  unfold lookupObjectStore
  cases hv : m.get? key with
  | none => exact Obj.get?_set_self _ _ _
  | some v =>
    cases v with
    | null => exact Obj.get?_set_self _ _ _
    | _ => simpa [storedObject] using hv

theorem containerHostnameStore_frame (p : Proxy) (c : Obj) (key : String)
    (hkey : key ≠ "Labels") : (containerHostnameStore p c).get? key = c.get? key := by
  unfold containerHostnameStore
  split
  · exact lookupObjectStore_get?_ne _ _ _ hkey
  · rfl

theorem containerHostnameStore_labels (p : Proxy) (c : Obj) :
    (containerHostnameStore p c).get? "Labels"
      = if p.HostnameFromLabel ≠ "" then storedObject (c.get? "Labels")
        else c.get? "Labels" := by
  unfold containerHostnameStore
  split
  · exact lookupObjectStore_get?_eq _ _
  · rfl

/-- When the mutations of the network-enabled branch succeed, the helper volume was
added and the document is the one that the DNS configurator leaves. -/
theorem mutateContainer_success (p : Proxy) (r : Request) (container hostConfig : Obj)
    (hok : (mutateContainer p r container hostConfig).err = none) :
    ∃ (hcB : Obj) (hostname : String), addWeaveWaitVolume p hostConfig = .ok hcB ∧
      (mutateContainer p r container hostConfig).container
        = (setWeaveDNS p (containerHostnameStore p
            (setWeaveWaitEntrypoint p (container.set "HostConfig" (.obj hcB))).container)
            hostname).container := by
  unfold mutateContainer at hok ⊢
  cases hB : addWeaveWaitVolume p hostConfig with
  | error e => simp [hB] at hok
  | ok hcB =>
    simp only [hB] at hok ⊢
    cases hE : (setWeaveWaitEntrypoint p (container.set "HostConfig" (.obj hcB))).err with
    | some e => simp [hE] at hok
    | none =>
      simp only [hE] at hok ⊢
      cases hH : containerHostname p r
          (setWeaveWaitEntrypoint p (container.set "HostConfig" (.obj hcB))).container with
      | mk hostname err =>
        cases err with
        | some e => simp [hH] at hok
        | none => exact ⟨hcB, hostname, rfl, by simp [hH]⟩

/-- On a network-enabled request, `InterceptRequest` is its enabled branch, on the
document that the lookups of `Config` and `HostConfig` leave. -/
theorem InterceptRequest_enabled (c : Codec) (p : Proxy) (r : Request)
    (container config hostConfig : Obj) (networkMode : String) (env cidrs : List String)
    (hBody : c.decode r.Body = .ok container)
    (hConfig : lookupObject container "Config" = .ok config)
    (hHostConfig : lookupObject container "HostConfig" = .ok hostConfig)
    (hMode : lookupString hostConfig "NetworkMode" = .ok networkMode)
    (hEnv : lookupStringArray config "Env" = .ok env)
    (hGate : p.weaveCIDRsFromConfig networkMode env = .ok cidrs) :
    InterceptRequest c p r
      = interceptEnabled c p r
          (lookupObjectStore (lookupObjectStore container "Config") "HostConfig")
          hostConfig := by
  simp [InterceptRequest, unmarshalRequestBody, hBody, hConfig, hHostConfig, hMode, hEnv,
    hGate, lookupObject_store_ne container "Config" "HostConfig" (by decide)]

/-- When the enabled branch succeeds, no mutation failed and the request that comes back
carries the serialised mutated document. -/
theorem interceptEnabled_success (c : Codec) (p : Proxy) (r : Request)
    (container hostConfig : Obj)
    (hok : (interceptEnabled c p r container hostConfig).err = none) :
    (mutateContainer p r container hostConfig).err = none ∧
      marshalRequestBody c r (mutateContainer p r container hostConfig).container
        = .ok (interceptEnabled c p r container hostConfig).request := by
  have hm : (mutateContainer p r container hostConfig).err = none := by
    cases hmut : (mutateContainer p r container hostConfig).err with
    | none => rfl
    | some e => simp [interceptEnabled, hmut] at hok
  refine ⟨hm, ?_⟩
  cases hmar : marshalRequestBody c r (mutateContainer p r container hostConfig).container with
  | error e => simp [interceptEnabled, hm, hmar] at hok
  | ok r1 => simp [interceptEnabled, hm, hmar]

/-- What the mutations of the network-enabled branch, when they succeed, leave of the
decoded document `container`: `doc` is `container` after the lookups of `Config` and
`HostConfig`, and `hostConfig` the mapping under `HostConfig`. -/
theorem mutateContainer_frame (p : Proxy) (r : Request) (container config hostConfig : Obj)
    (hConfig : lookupObject container "Config" = .ok config)
    (hok : (mutateContainer p r
      (lookupObjectStore (lookupObjectStore container "Config") "HostConfig")
      hostConfig).err = none) :
    ∃ (hc1 : Obj) (B : List String),
      lookupStringArray hostConfig "Binds" = .ok B ∧
      (∀ key, key ≠ "Entrypoint" → key ≠ "Cmd" → key ≠ "Hostname" → key ≠ "Domainname" →
        key ≠ "HostConfig" → key ≠ "Config" → key ≠ "Labels" →
        (mutateContainer p r
          (lookupObjectStore (lookupObjectStore container "Config") "HostConfig")
          hostConfig).container.get? key = container.get? key) ∧
      (mutateContainer p r
          (lookupObjectStore (lookupObjectStore container "Config") "HostConfig")
          hostConfig).container.get? "Config" = some (.obj config) ∧
      (mutateContainer p r
          (lookupObjectStore (lookupObjectStore container "Config") "HostConfig")
          hostConfig).container.get? "Config" = storedObject (container.get? "Config") ∧
      (mutateContainer p r
          (lookupObjectStore (lookupObjectStore container "Config") "HostConfig")
          hostConfig).container.get? "Labels"
        = (if p.HostnameFromLabel ≠ "" then storedObject (container.get? "Labels")
            else container.get? "Labels") ∧
      (mutateContainer p r
          (lookupObjectStore (lookupObjectStore container "Config") "HostConfig")
          hostConfig).container.get? "HostConfig" = some (.obj hc1) ∧
      (∀ key, key ≠ "Dns" → key ≠ "DnsSearch" →
        hc1.get? key
          = (hostConfig.set "Binds" (.strs (some
              (B.filter (fun b => decide (secondField b ≠ some "/w"))
                ++ [p.weaveWaitVolume ++ ":/w:ro"])))).get? key) := by
  obtain ⟨hcB, hostname, hB, hout⟩ := mutateContainer_success p r _ hostConfig hok
  obtain ⟨B, hBinds⟩ : ∃ B, lookupStringArray hostConfig "Binds" = .ok B := by
    cases hb : lookupStringArray hostConfig "Binds" with
    | ok B => exact ⟨B, rfl⟩
    | error e => simp [addWeaveWaitVolume, hb] at hB
  rw [addWeaveWaitVolume_eq p hostConfig B hBinds] at hB
  cases hB
  rw [hout]
  have hdoc : ∀ key, key ≠ "Entrypoint" → key ≠ "Cmd" → key ≠ "HostConfig" →
      key ≠ "Labels" → ∀ v,
      (containerHostnameStore p (setWeaveWaitEntrypoint p
        ((lookupObjectStore (lookupObjectStore container "Config") "HostConfig").set
          "HostConfig" v)).container).get? key
        = (lookupObjectStore container "Config").get? key := by
    intro key k1 k2 k3 k4 v
    rw [containerHostnameStore_frame _ _ _ k4, setWeaveWaitEntrypoint_frame _ _ _ k1 k2,
      Obj.get?_set_ne _ _ _ _ k3, lookupObjectStore_get?_ne _ _ _ k3]
  have hcfg : ∀ v hn,
      (setWeaveDNS p (containerHostnameStore p (setWeaveWaitEntrypoint p
        ((lookupObjectStore (lookupObjectStore container "Config") "HostConfig").set
          "HostConfig" v)).container) hn).container.get? "Config"
        = (lookupObjectStore container "Config").get? "Config" := by
    intro v hn
    rw [setWeaveDNS_frame _ _ _ _ (by decide) (by decide) (by decide)]
    exact hdoc "Config" (by decide) (by decide) (by decide) (by decide) v
  have hHC : ∀ v,
      (containerHostnameStore p (setWeaveWaitEntrypoint p
        ((lookupObjectStore (lookupObjectStore container "Config") "HostConfig").set
          "HostConfig" v)).container).get? "HostConfig" = some v := by
    intro v
    rw [containerHostnameStore_frame _ _ _ (by decide),
      setWeaveWaitEntrypoint_frame _ _ _ (by decide) (by decide), Obj.get?_set_self]
  obtain ⟨hc1, e1, e2⟩ := setWeaveDNS_hostConfig p _ _ hostname (hHC (.obj
    (hostConfig.set "Binds" (.strs (some
      (B.filter (fun b => decide (secondField b ≠ some "/w"))
        ++ [p.weaveWaitVolume ++ ":/w:ro"]))))))
  refine ⟨hc1, B, hBinds, ?_, ?_, ?_, ?_, e1, e2⟩
  · intro key k1 k2 k3 k4 k5 k6 k7
    rw [setWeaveDNS_frame _ _ _ _ k3 k4 k5, hdoc key k1 k2 k5 k7,
      lookupObjectStore_get?_ne _ _ _ k6]
  · rw [hcfg]
    exact lookupObjectStore_get?_self container config "Config" hConfig
  · rw [hcfg]
    exact lookupObjectStore_get?_eq container "Config"
  · rw [setWeaveDNS_frame _ _ _ _ (by decide) (by decide) (by decide),
      containerHostnameStore_labels, setWeaveWaitEntrypoint_frame _ _ _ (by decide) (by decide),
      Obj.get?_set_ne _ _ _ _ (by decide), lookupObjectStore_get?_ne _ _ _ (by decide),
      lookupObjectStore_get?_ne _ _ _ (by decide)]

/-! ## C16: what the interceptor leaves alone -/

/-- C16 as stated fails: the request `plain-body` holds only `Image`; it is
network-enabled and intercepted with success, and the document serialised holds a
top-level key `Config` (the empty mapping) that the decoded document does not have. -/
theorem InterceptRequest_adds_config_counterexample :
    plainCodec.decode "plain-body" = .ok [("Image", .str "foo")] ∧
      Obj.get? [("Image", .str "foo")] "Config" = none ∧
      (InterceptRequest plainCodec sampleProxy ⟨"web1", "plain-body"⟩).err = none ∧
      marshalRequestBody plainCodec ⟨"web1", "plain-body"⟩
          (mutateContainer sampleProxy ⟨"web1", "plain-body"⟩
            (lookupObjectStore (lookupObjectStore [("Image", .str "foo")] "Config")
              "HostConfig") []).container
        = .ok (InterceptRequest plainCodec sampleProxy ⟨"web1", "plain-body"⟩).request ∧
      (mutateContainer sampleProxy ⟨"web1", "plain-body"⟩
          (lookupObjectStore (lookupObjectStore [("Image", .str "foo")] "Config")
            "HostConfig") []).container.get? "Config" = some (.obj []) :=
  ⟨rfl, rfl, rfl, rfl, rfl⟩

/-- C16, amended: on a network-enabled request on which `InterceptRequest` succeeds, the
document serialised as the new body differs from the decoded one at most in the
top-level keys `Entrypoint`, `Cmd`, `Hostname`, `Domainname`, in the keys `Binds`,
`Dns`, `DnsSearch` of `HostConfig`, and in that `Config`, `HostConfig` and (when a
hostname label is configured) `Labels` hold a mapping where the key was missing or
null, the empty one for `Config` and `Labels`. Every other top-level key and every
other key of `HostConfig` is as it was, and a `Config` or `Labels` that held a value
holds the same value. -/
theorem InterceptRequest_frame (c : Codec) (p : Proxy) (r : Request)
    (container config hostConfig : Obj) (networkMode : String) (env cidrs : List String)
    (hBody : c.decode r.Body = .ok container)
    (hConfig : lookupObject container "Config" = .ok config)
    (hHostConfig : lookupObject container "HostConfig" = .ok hostConfig)
    (hMode : lookupString hostConfig "NetworkMode" = .ok networkMode)
    (hEnv : lookupStringArray config "Env" = .ok env)
    (hGate : p.weaveCIDRsFromConfig networkMode env = .ok cidrs)
    (hok : (InterceptRequest c p r).err = none) :
    ∃ out hc1 : Obj,
      out = (mutateContainer p r
        (lookupObjectStore (lookupObjectStore container "Config") "HostConfig")
        hostConfig).container ∧
      marshalRequestBody c r out = .ok (InterceptRequest c p r).request ∧
      (∀ key, key ≠ "Entrypoint" → key ≠ "Cmd" → key ≠ "Hostname" → key ≠ "Domainname" →
        key ≠ "HostConfig" → key ≠ "Config" → key ≠ "Labels" →
        out.get? key = container.get? key) ∧
      out.get? "Config" = storedObject (container.get? "Config") ∧
      out.get? "Config" = some (.obj config) ∧
      out.get? "Labels"
        = (if p.HostnameFromLabel ≠ "" then storedObject (container.get? "Labels")
            else container.get? "Labels") ∧
      out.get? "HostConfig" = some (.obj hc1) ∧
      (∀ key, key ≠ "Binds" → key ≠ "Dns" → key ≠ "DnsSearch" →
        hc1.get? key = hostConfig.get? key) := by
  have hen := InterceptRequest_enabled c p r container config hostConfig networkMode env cidrs
    hBody hConfig hHostConfig hMode hEnv hGate
  rw [hen] at hok ⊢
  obtain ⟨hm, hmar⟩ := interceptEnabled_success c p r _ hostConfig hok
  obtain ⟨hc1, B, _, htop, hcfg1, hcfg2, hlab, hH, hrest⟩ :=
    mutateContainer_frame p r container config hostConfig hConfig hm
  refine ⟨_, hc1, rfl, hmar, htop, hcfg2, hcfg1, hlab, hH, ?_⟩
  intro key k1 k2 k3
  rw [hrest key k2 k3]
  exact Obj.get?_set_ne _ _ _ _ k1

/-- C16, amended, at the sample request `plain-body`: the request is network-enabled and
intercepted with success; the `Image` of the document is the one that came in and
`Config` is the empty mapping. -/
theorem InterceptRequest_frame_witness :
    sampleProxy.weaveCIDRsFromConfig "" [] = .ok ["net:default"] ∧
      (InterceptRequest plainCodec sampleProxy ⟨"web1", "plain-body"⟩).err = none ∧
      (mutateContainer sampleProxy ⟨"web1", "plain-body"⟩
          (lookupObjectStore (lookupObjectStore [("Image", .str "foo")] "Config")
            "HostConfig") []).container.get? "Image" = some (.str "foo") ∧
      (mutateContainer sampleProxy ⟨"web1", "plain-body"⟩
          (lookupObjectStore (lookupObjectStore [("Image", .str "foo")] "Config")
            "HostConfig") []).container.get? "Config" = some (.obj []) := by
  obtain ⟨out, hc1, e, _, htop, _, hcfg, _⟩ :=
    InterceptRequest_frame plainCodec sampleProxy ⟨"web1", "plain-body"⟩
      [("Image", .str "foo")] [] [] "" [] ["net:default"] rfl rfl rfl rfl rfl rfl rfl
  subst e
  exact ⟨rfl, rfl, htop "Image" (by decide) (by decide) (by decide) (by decide) (by decide)
    (by decide) (by decide), hcfg⟩

/-! ## C17: one helper volume in the serialised document -/

/-- C17 as stated fails: with the helper-volume source `a:b`, the request `plain-body`
(no `HostConfig` key) is network-enabled and intercepted with success; the document
serialised has `HostConfig.Binds = ["a:b:/w:ro"]`, in which no entry has `/w` as its
second colon-delimited field. -/
theorem InterceptRequest_colon_source_counterexample :
    (InterceptRequest plainCodec colonProxy ⟨"web1", "plain-body"⟩).err = none ∧
      marshalRequestBody plainCodec ⟨"web1", "plain-body"⟩
          (mutateContainer colonProxy ⟨"web1", "plain-body"⟩
            (lookupObjectStore (lookupObjectStore [("Image", .str "foo")] "Config")
              "HostConfig") []).container
        = .ok (InterceptRequest plainCodec colonProxy ⟨"web1", "plain-body"⟩).request ∧
      (mutateContainer colonProxy ⟨"web1", "plain-body"⟩
          (lookupObjectStore (lookupObjectStore [("Image", .str "foo")] "Config")
            "HostConfig") []).container.get? "HostConfig"
        = some (.obj [("Binds", .strs (some ["a:b:/w:ro"]))]) ∧
      (["a:b:/w:ro"].filter (fun b => decide (secondField b = some "/w"))).length = 0 := by
  refine ⟨rfl, rfl, rfl, by decide⟩

/-- C17, amended: when the helper-volume source contains no colon, on every
network-enabled request on which `InterceptRequest` succeeds (also one without a
`HostConfig` key or without `Binds`) the document serialised as the new body has a
`HostConfig.Binds` with exactly one entry whose second colon-delimited field is `/w`. -/
theorem InterceptRequest_one_helper (c : Codec) (p : Proxy) (r : Request)
    (container config hostConfig : Obj) (networkMode : String) (env cidrs : List String)
    (hBody : c.decode r.Body = .ok container)
    (hConfig : lookupObject container "Config" = .ok config)
    (hHostConfig : lookupObject container "HostConfig" = .ok hostConfig)
    (hMode : lookupString hostConfig "NetworkMode" = .ok networkMode)
    (hEnv : lookupStringArray config "Env" = .ok env)
    (hGate : p.weaveCIDRsFromConfig networkMode env = .ok cidrs)
    (hok : (InterceptRequest c p r).err = none)
    (hV : ':' ∉ p.weaveWaitVolume.data) :
    ∃ (out hc1 : Obj) (l : List String),
      out = (mutateContainer p r
        (lookupObjectStore (lookupObjectStore container "Config") "HostConfig")
        hostConfig).container ∧
      marshalRequestBody c r out = .ok (InterceptRequest c p r).request ∧
      out.get? "HostConfig" = some (.obj hc1) ∧
      hc1.get? "Binds" = some (.strs (some l)) ∧
      (l.filter (fun b => decide (secondField b = some "/w"))).length = 1 := by
  have hen := InterceptRequest_enabled c p r container config hostConfig networkMode env cidrs
    hBody hConfig hHostConfig hMode hEnv hGate
  rw [hen] at hok ⊢
  obtain ⟨hm, hmar⟩ := interceptEnabled_success c p r _ hostConfig hok
  obtain ⟨hc1, B, _, _, _, _, _, hH, hrest⟩ :=
    mutateContainer_frame p r container config hostConfig hConfig hm
  refine ⟨_, hc1, B.filter (fun b => decide (secondField b ≠ some "/w"))
    ++ [p.weaveWaitVolume ++ ":/w:ro"], rfl, hmar, hH, ?_, ?_⟩
  · rw [hrest "Binds" (by decide) (by decide)]
    exact Obj.get?_set_self _ _ _
  · have hlast := secondField_helper_entry p.weaveWaitVolume hV
    have h0 : (B.filter (fun b => decide (secondField b ≠ some "/w"))).filter
        (fun b => decide (secondField b = some "/w")) = [] := by
      simp [List.filter_eq_nil_iff]
    simp [List.filter_append, h0, hlast]

/-- C17, amended, at the sample request `plain-body`, which has no `HostConfig` key: the
document serialised has `HostConfig.Binds = ["/vol:/w:ro"]`, one entry, which targets
`/w`. -/
theorem InterceptRequest_one_helper_witness :
    Obj.get? [("Image", .str "foo")] "HostConfig" = none ∧
      (InterceptRequest plainCodec sampleProxy ⟨"web1", "plain-body"⟩).err = none ∧
      (mutateContainer sampleProxy ⟨"web1", "plain-body"⟩
          (lookupObjectStore (lookupObjectStore [("Image", .str "foo")] "Config")
            "HostConfig") []).container.get? "HostConfig"
        = some (.obj [("Binds", .strs (some ["/vol:/w:ro"]))]) ∧
      ∃ (hc1 : Obj) (l : List String),
        (mutateContainer sampleProxy ⟨"web1", "plain-body"⟩
          (lookupObjectStore (lookupObjectStore [("Image", .str "foo")] "Config")
            "HostConfig") []).container.get? "HostConfig" = some (.obj hc1) ∧
        hc1.get? "Binds" = some (.strs (some l)) ∧
        (l.filter (fun b => decide (secondField b = some "/w"))).length = 1 := by
  obtain ⟨out, hc1, l, e, _, h1, h2, h3⟩ :=
    InterceptRequest_one_helper plainCodec sampleProxy ⟨"web1", "plain-body"⟩
      [("Image", .str "foo")] [] [] "" [] ["net:default"] rfl rfl rfl rfl rfl rfl rfl
      (by decide)
  subst e
  exact ⟨rfl, rfl, rfl, hc1, l, h1, h2, h3⟩

end WeaveProxy
